import Mathlib

/-!
# Hardware entropy collector (`collector.c`)

A shallow embedding of the RDRAND / RDSEED sample collector and proofs about
its retry loops and its chunked collection loop.

Modelling conventions.

* The two instructions are external. A run of the program sees one outcome per
  invocation of each instruction, so the hardware is a pair of outcome
  sequences (`Hardware`), indexed by the number of earlier invocations of that
  instruction. The program is deterministic, hence every run is a run against
  some pair of sequences.
* `Cpu` is the part of the machine state the retry loops touch: how many
  times each instruction has been invoked, and the chronological log of
  instruction invocations and `usleep` calls.
* `World` adds the two output files (as byte lists, `none` when the file does
  not exist) and the chronological trace of C library calls made by `main`.
* `long long` values are `Int`; the two arithmetic operations of the
  collection loop that could leave the signed 64-bit range, and every buffer
  access, are checked and lead to `Outcome.undefined` when they go wrong.
  The increments of the loop counters are not checked: each follows a test
  `i < bound` against a bound of its own type, so it cannot overflow.
* The value `atoll(argv[1])` is a parameter of `main`; parsing is not
  modelled.
* Sample values are opaque to the program, which only stores and writes
  them; they are natural numbers, and `le_bytes` gives the 8 bytes of a value
  below `2 ^ 64`.
* Loops whose trip count depends on data take a fuel argument and yield
  `timeout` when it runs out.
* `fwrite` is assumed to write everything it is asked to write.
-/

namespace Collector

/-! ## Constants and machine types -/

/-- The macro `CHUNK_SIZE`. -/
def CHUNK_SIZE : Int := 65536

/-- Largest value of `long long`. -/
def LLONG_MAX : Int := 9223372036854775807

/-- Smallest value of `long long`. -/
def LLONG_MIN : Int := -9223372036854775808

/-- The value of `sizeof(unsigned long long)`. -/
def SIZEOF_ULL : Nat := 8

/-- Outcome of one `_rdrand64_step` / `_rdseed64_step`: the carry flag the
intrinsic returns and the value it stores through its pointer argument. -/
structure Step where
  cf : Bool
  val : Nat
  deriving DecidableEq, Repr

/-- The outcome sequences of the two instructions: entry `n` is what the
`n`-th invocation (counting from 0) of that instruction produces. -/
structure Hardware where
  rdrand64_step : Nat → Step
  rdseed64_step : Nat → Step

/-- What the retry loops do to the machine, in order. -/
inductive HwEvent where
  | rdrand (cf : Bool)
  | rdseed (cf : Bool)
  | usleep (usec : Nat)
  deriving DecidableEq, Repr

/-- Invocation counters of the two instructions and the log of events. -/
structure Cpu where
  nrand : Nat
  nseed : Nat
  log : List HwEvent
  deriving DecidableEq, Repr

/-- What a retry function leaves behind: its `int` return value, the content
of `*value`, and the machine state. -/
structure Retry where
  ret : Int
  value : Nat
  cpu : Cpu
  deriving DecidableEq, Repr

/-! ## The two retry functions -/

/-- The `for` loop of `rdrand_u64_retry` with `n` iterations left to run
(`n = 2000 - i`); `v` is the current content of `*value`. -/
def rdrand_loop (hw : Hardware) : Nat → Cpu → Nat → Retry
  | 0, c, v => ⟨0, v, c⟩
  | n + 1, c, _ =>
    let s := hw.rdrand64_step c.nrand
    let c1 : Cpu := { c with nrand := c.nrand + 1, log := c.log ++ [HwEvent.rdrand s.cf] }
    if s.cf then ⟨1, s.val, c1⟩ else rdrand_loop hw n c1 s.val

/-- The function `rdrand_u64_retry(&x)` where `x` currently holds `v`. -/
def rdrand_u64_retry (hw : Hardware) (c : Cpu) (v : Nat) : Retry :=
  rdrand_loop hw 2000 c v

/-- The `for` loop of `rdseed_u64_retry` at loop counter `i` with `n`
iterations left to run (`n = 200000 - i`). -/
def rdseed_loop (hw : Hardware) : Nat → Nat → Cpu → Nat → Retry
  | 0, _, c, v => ⟨0, v, c⟩
  | n + 1, i, c, _ =>
    let s := hw.rdseed64_step c.nseed
    let c1 : Cpu := { c with nseed := c.nseed + 1, log := c.log ++ [HwEvent.rdseed s.cf] }
    if s.cf then ⟨1, s.val, c1⟩
    else
      let c2 : Cpu := if i % 50 = 0 then { c1 with log := c1.log ++ [HwEvent.usleep 1] } else c1
      rdseed_loop hw n (i + 1) c2 s.val

/-- The function `rdseed_u64_retry(&x)` where `x` currently holds `v`. -/
def rdseed_u64_retry (hw : Hardware) (c : Cpu) (v : Nat) : Retry :=
  rdseed_loop hw 200000 0 c v

/-- Number of `usleep` calls in a log. -/
def sleeps (l : List HwEvent) : Nat :=
  (l.filter (fun e => match e with | HwEvent.usleep _ => true | _ => false)).length

/-- The events of the failed attempts with loop counters `i, …, i + k - 1` of
`rdseed_u64_retry`, in order: each failed invocation, followed by a `usleep`
when the condition of the source's `if` holds for its counter. -/
def seedFailLog (i k : Nat) : List HwEvent :=
  (List.range' i k).flatMap
    (fun j => HwEvent.rdseed false :: (if j % 50 = 0 then [HwEvent.usleep 1] else []))

/-! ## Files, library calls and the world -/

/-- The two sources; also names the output file and the chunk buffer that
belong to the source. -/
inductive Src where
  | rdrand
  | rdseed
  deriving DecidableEq, Repr

/-- The lines `main` prints with `printf`, with their arguments. -/
inductive Msg where
  /-- The line "Usage: %s <num_samples>". -/
  | usage (argv0 : String)
  /-- The line "Error: cannot open output files.". -/
  | cannotOpen
  /-- The line "Memory allocation failed.". -/
  | allocFailed
  /-- The line "Collecting %lld samples each from RDRAND and RDSEED...". -/
  | collecting (total : Int)
  /-- The line "RDRAND failure.". -/
  | rdrandFailure
  /-- The line "RDSEED failure.". -/
  | rdseedFailure
  /-- The line "Progress: %lld / %lld". -/
  | progress (collected total : Int)
  /-- The lines "Done." and "Saved: ..." naming the two files. -/
  | done
  deriving DecidableEq, Repr

/-- Chronological trace of `main`: its C library calls, and one ghost marker
`chunk collected to_read` at the start of every iteration of the collection
loop, recording the values of the two variables at that point. -/
inductive Event where
  | fopen (f : Src) (ok : Bool)
  | malloc (b : Src) (ok : Bool)
  | printf (m : Msg)
  | chunk (collected to_read : Int)
  | fwrite (f : Src) (count : Int)
  | free (b : Src)
  | fclose (f : Src)
  deriving DecidableEq, Repr

/-- Machine state, the bytes of `rdrand_raw.bin` and of `rdseed_raw.bin`
(`none`: the file does not exist), and the trace. -/
structure World where
  cpu : Cpu
  rdrand_raw : Option (List Nat)
  rdseed_raw : Option (List Nat)
  trace : List Event
  deriving DecidableEq, Repr

/-- Execution reached undefined behaviour of C. -/
inductive Fault where
  | signed_overflow
  | buffer_overrun
  deriving DecidableEq, Repr

/-- How a run of `main` ends. -/
inductive Outcome where
  | exit (status : Int) (w : World)
  | undefined (f : Fault)
  | timeout
  deriving DecidableEq, Repr

/-- The bytes of an object of `size` bytes holding `v`, lowest byte first
(native byte order of x86-64). -/
def le_bytes (size v : Nat) : List Nat :=
  (List.range size).map (fun k => v / 256 ^ k % 256)

/-- The bytes of a sequence of `unsigned long long` values. -/
def bytesOf (xs : List Nat) : List Nat :=
  xs.flatMap (le_bytes SIZEOF_ULL)

/-- Appending bytes to a file that exists. -/
def fappend (file : Option (List Nat)) (bytes : List Nat) : Option (List Nat) :=
  file.map (fun old => old ++ bytes)

/-- The call `fwrite(buf, size, count, fp)`: the first `count` elements of
`buf`, `size` bytes each, go to the end of the file. -/
def fwrite (buf : Int → Nat) (size count : Nat) (file : Option (List Nat)) :
    Option (List Nat) :=
  fappend file (((List.range count).map (fun (k : Nat) => buf (k : Int))).flatMap (le_bytes size))

/-- The call `fopen(name, "wb")` with result `ok`: on success the file exists
and is empty. -/
def fopen_wb (f : Src) (ok : Bool) (w : World) : World :=
  let w1 : World := { w with trace := w.trace ++ [Event.fopen f ok] }
  if ok then
    match f with
    | Src.rdrand => { w1 with rdrand_raw := some [] }
    | Src.rdseed => { w1 with rdseed_raw := some [] }
  else w1

/-- What the environment decides: whether each `fopen` and each `malloc`
succeeds, and the initial (indeterminate) content of the two buffers. -/
structure Env where
  fopen_rdrand : Bool
  fopen_rdseed : Bool
  malloc_rdrand : Bool
  malloc_rdseed : Bool
  heap_rdrand : Int → Nat
  heap_rdseed : Int → Nat

/-! ## The collection loop and `main` -/

/-- How the inner `for` loop ends. -/
inductive Fill where
  | filled (buf_rdrand buf_rdseed : Int → Nat) (cpu : Cpu)
  | failed (src : Src) (cpu : Cpu)
  | undefined (f : Fault)
  | timeout

/-- The inner loop `for (long long i = 0; i < to_read; i++)` from counter `i`
on. The buffers have `CHUNK_SIZE` elements, so `&buf[i]` is only defined for
`0 <= i < CHUNK_SIZE`. On exhaustion of a source the loop is left at once. -/
def fill_loop (hw : Hardware) (to_read : Int) :
    Nat → Int → (Int → Nat) → (Int → Nat) → Cpu → Fill
  | 0, _, _, _, _ => Fill.timeout
  | fuel + 1, i, buf_rdrand, buf_rdseed, c =>
    if i < to_read then
      if 0 ≤ i ∧ i < CHUNK_SIZE then
        let r := rdrand_u64_retry hw c (buf_rdrand i)
        if r.ret = 0 then Fill.failed Src.rdrand r.cpu
        else
          let s := rdseed_u64_retry hw r.cpu (buf_rdseed i)
          if s.ret = 0 then Fill.failed Src.rdseed s.cpu
          else
            fill_loop hw to_read fuel (i + 1)
              (Function.update buf_rdrand i r.value)
              (Function.update buf_rdseed i s.value) s.cpu
      else Fill.undefined Fault.buffer_overrun
    else Fill.filled buf_rdrand buf_rdseed c

/-- The failure line of a source. -/
def failureMsg : Src → Msg
  | Src.rdrand => Msg.rdrandFailure
  | Src.rdseed => Msg.rdseedFailure

/-- How the collection loop ends. -/
inductive Loop where
  | done (w : World)
  | aborted (w : World)
  | undefined (f : Fault)
  | timeout
  deriving DecidableEq, Repr

/-- Whether a mathematical integer is a value of `long long`. -/
def in_llong (x : Int) : Prop := LLONG_MIN ≤ x ∧ x ≤ LLONG_MAX

instance (x : Int) : Decidable (in_llong x) := by
  unfold in_llong; infer_instance

/-- The loop `while (collected < total)`. `inner_fuel` is the fuel handed to
every run of the inner loop. -/
def collect_loop (hw : Hardware) (total : Int) (inner_fuel : Nat) :
    Nat → Int → (Int → Nat) → (Int → Nat) → World → Loop
  | 0, _, _, _, _ => Loop.timeout
  | fuel + 1, collected, buf_rdrand, buf_rdseed, w =>
    if collected < total then
      if in_llong (total - collected) then
        let to_read : Int :=
          if total - collected > CHUNK_SIZE then CHUNK_SIZE else total - collected
        let w0 : World := { w with trace := w.trace ++ [Event.chunk collected to_read] }
        match fill_loop hw to_read inner_fuel 0 buf_rdrand buf_rdseed w0.cpu with
        | Fill.filled b1 b2 c1 =>
          if 0 ≤ to_read ∧ to_read ≤ CHUNK_SIZE then
            let w1 : World :=
              { cpu := c1
                rdrand_raw := fwrite b1 SIZEOF_ULL to_read.toNat w0.rdrand_raw
                rdseed_raw := fwrite b2 SIZEOF_ULL to_read.toNat w0.rdseed_raw
                trace := w0.trace ++
                  [Event.fwrite Src.rdrand to_read, Event.fwrite Src.rdseed to_read] }
            if in_llong (collected + to_read) then
              let collected1 := collected + to_read
              let w2 : World :=
                if Int.tmod collected1 (CHUNK_SIZE * 20) = 0 then
                  { w1 with trace := w1.trace ++ [Event.printf (Msg.progress collected1 total)] }
                else w1
              collect_loop hw total inner_fuel fuel collected1 b1 b2 w2
            else Loop.undefined Fault.signed_overflow
          else Loop.undefined Fault.buffer_overrun
        | Fill.failed src c1 =>
          Loop.aborted
            { w0 with cpu := c1, trace := w0.trace ++ [Event.printf (failureMsg src)] }
        | Fill.undefined f => Loop.undefined f
        | Fill.timeout => Loop.timeout
      else Loop.undefined Fault.signed_overflow
    else Loop.done w

/-- The function `main`; `total` is the value `atoll(argv[1])` returns and
`argv0` is `argv[0]`. -/
def main (env : Env) (hw : Hardware) (fuel : Nat) (argc : Int) (argv0 : String)
    (total : Int) (w : World) : Outcome :=
  if argc ≠ 2 then
    Outcome.exit 1 { w with trace := w.trace ++ [Event.printf (Msg.usage argv0)] }
  else
    let w1 := fopen_wb Src.rdrand env.fopen_rdrand w
    let w2 := fopen_wb Src.rdseed env.fopen_rdseed w1
    if !env.fopen_rdrand || !env.fopen_rdseed then
      Outcome.exit 1 { w2 with trace := w2.trace ++ [Event.printf Msg.cannotOpen] }
    else
      let w3 : World :=
        { w2 with trace := w2.trace ++
            [Event.malloc Src.rdrand env.malloc_rdrand, Event.malloc Src.rdseed env.malloc_rdseed] }
      if !env.malloc_rdrand || !env.malloc_rdseed then
        Outcome.exit 1 { w3 with trace := w3.trace ++ [Event.printf Msg.allocFailed] }
      else
        let w4 : World := { w3 with trace := w3.trace ++ [Event.printf (Msg.collecting total)] }
        match collect_loop hw total fuel fuel 0 env.heap_rdrand env.heap_rdseed w4 with
        | Loop.done w5 =>
          Outcome.exit 0
            { w5 with trace := w5.trace ++
                [Event.printf Msg.done, Event.free Src.rdrand, Event.free Src.rdseed,
                 Event.fclose Src.rdrand, Event.fclose Src.rdseed] }
        | Loop.aborted w5 => Outcome.exit 1 w5
        | Loop.undefined f => Outcome.undefined f
        | Loop.timeout => Outcome.timeout

/-! ## Reference behaviour -/

/-- Result of a reference collection: the values obtained from each source in
acquisition order, the source that was exhausted (if any), and the machine
state at the end. -/
structure Acq where
  rand : List Nat
  seed : List Nat
  failed : Option Src
  cpu : Cpu
  deriving DecidableEq, Repr

/-- Unchunked reference collection, following the specification: `n` times,
acquire one value from the fast source and then one from the seeded source,
keeping the values in acquisition order; stop at the first acquisition that
is exhausted. There is no buffer and no chunk. -/
def acquire (hw : Hardware) : Nat → Cpu → Acq
  | 0, c => ⟨[], [], none, c⟩
  | n + 1, c =>
    let r := rdrand_u64_retry hw c 0
    if r.ret = 0 then ⟨[], [], some Src.rdrand, r.cpu⟩
    else
      let s := rdseed_u64_retry hw r.cpu 0
      if s.ret = 0 then ⟨[r.value], [], some Src.rdseed, s.cpu⟩
      else
        let a := acquire hw n s.cpu
        ⟨r.value :: a.rand, s.value :: a.seed, a.failed, a.cpu⟩

/-- The buffer `b` after the values `xs` were stored at indices `i, i + 1, …`. -/
def overlay (b : Int → Nat) : Int → List Nat → (Int → Nat)
  | _, [] => b
  | i, x :: xs => overlay (Function.update b i x) (i + 1) xs

/-- Number of chunks needed for `r` remaining samples. -/
def nchunks (r : Int) : Nat := ((r + (CHUNK_SIZE - 1)) / CHUNK_SIZE).toNat

/-- Reference trace of `m` complete chunk iterations that start at cumulative
count `c`, following the specification: each chunk has
`min(CHUNK_SIZE, remaining)` samples, is flushed to the RDRAND file and then
to the RDSEED file, and a progress line follows the flush when the cumulative
count is a multiple of `CHUNK_SIZE * 20`. -/
def chunkTrace (total : Int) : Nat → Int → List Event
  | 0, _ => []
  | m + 1, c =>
    let n := min CHUNK_SIZE (total - c)
    [Event.chunk c n, Event.fwrite Src.rdrand n, Event.fwrite Src.rdseed n] ++
      (if (c + n) % (CHUNK_SIZE * 20) = 0 then [Event.printf (Msg.progress (c + n) total)]
        else []) ++
      chunkTrace total m (c + n)

/-- The world a collection loop that starts at cumulative count `c` in world
`w` is expected to end in when the reference collection `A` of the remaining
samples succeeds: all values of `A` appended to the files, the trace of all
remaining chunks appended to the trace. -/
def doneWorld (total c : Int) (w : World) (A : Acq) : World :=
  ⟨A.cpu, fappend w.rdrand_raw (bytesOf A.rand), fappend w.rdseed_raw (bytesOf A.seed),
    w.trace ++ chunkTrace total (nchunks (total - c)) c⟩

/-- The world a collection loop that starts at cumulative count `c` in world
`w` is expected to end in when the reference collection `A` of the remaining
samples fails with `src` exhausted: with `q` the number of whole chunks among
the complete pairs of `A`, only the values of these `q` chunks appended to the
files, and the trace of these `q` chunks, the marker of the chunk in flight
and the failure line appended to the trace. -/
def abortWorld (total c : Int) (w : World) (A : Acq) (src : Src) : World :=
  ⟨A.cpu,
    fappend w.rdrand_raw (bytesOf (A.rand.take (65536 * (A.seed.length / 65536)))),
    fappend w.rdseed_raw (bytesOf (A.seed.take (65536 * (A.seed.length / 65536)))),
    w.trace ++ chunkTrace total (A.seed.length / 65536) c ++
      [Event.chunk (c + 65536 * ((A.seed.length / 65536 : Nat) : Int))
          (min CHUNK_SIZE (total - (c + 65536 * ((A.seed.length / 65536 : Nat) : Int)))),
        Event.printf (failureMsg src)]⟩

/-- The trace of `main` from its start to the start of the collection loop
when both files open and both buffers are allocated. -/
def setupTrace (total : Int) : List Event :=
  [Event.fopen Src.rdrand true, Event.fopen Src.rdseed true,
    Event.malloc Src.rdrand true, Event.malloc Src.rdseed true,
    Event.printf (Msg.collecting total)]

/-- The trace of `main` after a collection loop that ran to its end. -/
def cleanupTrace : List Event :=
  [Event.printf Msg.done, Event.free Src.rdrand, Event.free Src.rdseed,
    Event.fclose Src.rdrand, Event.fclose Src.rdseed]

/-- The world at the start of the collection loop when both files open and
both buffers are allocated: both files exist and are empty. -/
def startWorld (total : Int) (w : World) : World :=
  ⟨w.cpu, some [], some [], w.trace ++ setupTrace total⟩

/-- Whether the environment lets both `fopen` calls and both `malloc` calls
succeed. -/
def Env.allOk (env : Env) : Prop :=
  env.fopen_rdrand = true ∧ env.fopen_rdseed = true ∧
    env.malloc_rdrand = true ∧ env.malloc_rdseed = true

/-- An environment in which every `fopen` and `malloc` succeeds. -/
def envOk : Env := ⟨true, true, true, true, fun _ => 0, fun _ => 0⟩

/-- What a trace sends to standard output, in order. -/
def stdout (t : List Event) : List Msg :=
  t.filterMap (fun e => match e with | Event.printf m => some m | _ => none)

/-- The trace of chunk number `q` (counted from 0) when all earlier chunks
were full, so that it starts at cumulative count `CHUNK_SIZE * q`: the marker,
the two flushes, and the progress line if the new cumulative count is a
multiple of `CHUNK_SIZE * 20`. -/
def chunkEvents (total : Int) (q : Nat) : List Event :=
  [Event.chunk (CHUNK_SIZE * q) (min CHUNK_SIZE (total - CHUNK_SIZE * q)),
    Event.fwrite Src.rdrand (min CHUNK_SIZE (total - CHUNK_SIZE * q)),
    Event.fwrite Src.rdseed (min CHUNK_SIZE (total - CHUNK_SIZE * q))] ++
  (if (CHUNK_SIZE * q + min CHUNK_SIZE (total - CHUNK_SIZE * q)) % (CHUNK_SIZE * 20) = 0 then
    [Event.printf
      (Msg.progress (CHUNK_SIZE * q + min CHUNK_SIZE (total - CHUNK_SIZE * q)) total)]
  else [])

/-- What holds at the start of an iteration of the collection loop, for the
values `c` of `collected` and `n` of `to_read` recorded by the marker. -/
def ChunkInv (total c n : Int) : Prop :=
  0 ≤ c ∧ c < total ∧ c % CHUNK_SIZE = 0 ∧
    n = (if total - c > CHUNK_SIZE then CHUNK_SIZE else total - c) ∧
    1 ≤ n ∧ n ≤ CHUNK_SIZE ∧ c + n ≤ total ∧
    in_llong (total - c) ∧ in_llong (c + n)

/-! ## Concrete inputs used in examples -/

/-- Machine state before any invocation. -/
def cpu0 : Cpu := ⟨0, 0, []⟩

/-- A world without output files and with an empty trace. -/
def world0 : World := ⟨cpu0, none, none, []⟩

/-- Hardware on which every invocation succeeds; invocation `n` of the fast
instruction yields `n`, invocation `n` of the seeded one yields `1000 + n`. -/
def hwGood : Hardware :=
  ⟨fun n => ⟨true, n⟩, fun n => ⟨true, 1000 + n⟩⟩

/-- Hardware whose fast instruction never succeeds. -/
def hwRandDead : Hardware :=
  ⟨fun _ => ⟨false, 0⟩, fun n => ⟨true, 1000 + n⟩⟩

/-- Hardware whose seeded instruction never succeeds. -/
def hwSeedDead : Hardware :=
  ⟨fun n => ⟨true, n⟩, fun _ => ⟨false, 0⟩⟩

/-- An environment in which `rdrand_raw.bin` opens and `rdseed_raw.bin` does
not. -/
def envSeedFileFails : Env := ⟨true, false, true, true, fun _ => 0, fun _ => 0⟩

/-- An environment in which both files open, the first buffer is allocated
and the second `malloc` fails. -/
def envSecondMallocFails : Env := ⟨true, true, true, false, fun _ => 0, fun _ => 0⟩

/-- Hardware whose seeded instruction fails on its first 150000 invocations
and succeeds from then on (first success at attempt 150001). -/
def hwSeedLate : Hardware :=
  ⟨fun n => ⟨true, n⟩, fun n => ⟨decide (150000 ≤ n), 1000 + n⟩⟩

/-- Hardware whose seeded instruction succeeds on its first 70000 invocations
and never again. -/
def hwSeedDies : Hardware :=
  ⟨fun n => ⟨true, n⟩, fun n => ⟨decide (n < 70000), 1000 + n⟩⟩

/-- Hardware whose seeded instruction fails on its first invocation and
succeeds from the second on. -/
def hwSeedSecond : Hardware :=
  ⟨fun n => ⟨true, n⟩, fun n => ⟨decide (1 ≤ n), 1000 + n⟩⟩

/-! ## The retry loops -/

theorem rdrand_loop_fail (hw : Hardware) :
    ∀ (n : Nat) (c : Cpu) (v : Nat),
      (∀ j, j < n → (hw.rdrand64_step (c.nrand + j)).cf = false) →
      (rdrand_loop hw n c v).ret = 0 ∧
      (rdrand_loop hw n c v).cpu =
        ⟨c.nrand + n, c.nseed, c.log ++ List.replicate n (HwEvent.rdrand false)⟩ := by
  intro n
  induction n with
  | zero => intro c v _; simp [rdrand_loop]
  | succ n ih =>
    intro c v h
    have h0 : (hw.rdrand64_step c.nrand).cf = false := by simpa using h 0 (Nat.succ_pos n)
    have ih1 := ih ⟨c.nrand + 1, c.nseed, c.log ++ [HwEvent.rdrand false]⟩
      (hw.rdrand64_step c.nrand).val (by
        intro j hj
        have := h (j + 1) (by omega)
        simpa [Nat.add_assoc, Nat.add_comm 1 j] using this)
    simp only [rdrand_loop, h0, Bool.false_eq_true, if_false]
    refine ⟨ih1.1, ?_⟩
    rw [ih1.2]
    simp [List.replicate_succ, Nat.add_assoc, Nat.add_comm 1 n]

theorem rdrand_loop_succ (hw : Hardware) :
    ∀ (n : Nat) (c : Cpu) (v k : Nat), k < n →
      (∀ j, j < k → (hw.rdrand64_step (c.nrand + j)).cf = false) →
      (hw.rdrand64_step (c.nrand + k)).cf = true →
      rdrand_loop hw n c v =
        ⟨1, (hw.rdrand64_step (c.nrand + k)).val,
          ⟨c.nrand + k + 1, c.nseed,
            c.log ++ List.replicate k (HwEvent.rdrand false) ++ [HwEvent.rdrand true]⟩⟩ := by
  intro n
  induction n with
  | zero => intro c v k hk; omega
  | succ n ih =>
    intro c v k hk hfail hok
    cases k with
    | zero =>
      have hok0 : (hw.rdrand64_step c.nrand).cf = true := by simpa using hok
      simp [rdrand_loop, hok0]
    | succ k =>
      have h0 : (hw.rdrand64_step c.nrand).cf = false := by simpa using hfail 0 (Nat.succ_pos k)
      have ih1 := ih ⟨c.nrand + 1, c.nseed, c.log ++ [HwEvent.rdrand false]⟩
        (hw.rdrand64_step c.nrand).val k (by omega)
        (by
          intro j hj
          have := hfail (j + 1) (by omega)
          simpa [Nat.add_assoc, Nat.add_comm 1 j] using this)
        (by simpa [Nat.add_assoc, Nat.add_comm 1 k] using hok)
      simp only [rdrand_loop, h0, Bool.false_eq_true, if_false]
      rw [ih1]
      simp [List.replicate_succ, Nat.add_assoc, Nat.add_comm 1 k]

theorem first_success (p : Nat → Bool) :
    ∀ n : Nat, (∀ j, j < n → p j = false) ∨
      ∃ k, k < n ∧ (∀ j, j < k → p j = false) ∧ p k = true := by
  intro n
  induction n with
  | zero => left; intro j hj; omega
  | succ n ih =>
    rcases ih with h | ⟨k, hk, hf, hs⟩
    · cases hp : p n with
      | false =>
        left
        intro j hj
        rcases Nat.lt_succ_iff_lt_or_eq.mp hj with h1 | h1
        · exact h j h1
        · rw [h1]; exact hp
      | true => exact Or.inr ⟨n, Nat.lt_succ_self n, h, hp⟩
    · exact Or.inr ⟨k, Nat.lt_succ_of_lt hk, hf, hs⟩

theorem seedFailLog_zero (i : Nat) : seedFailLog i 0 = [] := by
  simp [seedFailLog]

theorem seedFailLog_succ (i k : Nat) :
    seedFailLog i (k + 1) =
      HwEvent.rdseed false :: ((if i % 50 = 0 then [HwEvent.usleep 1] else []) ++
        seedFailLog (i + 1) k) := by
  simp [seedFailLog, List.range'_succ, List.flatMap_cons]

theorem sleeps_append (a b : List HwEvent) : sleeps (a ++ b) = sleeps a + sleeps b := by
  simp [sleeps, List.filter_append]

theorem sleeps_seedFailLog : ∀ (k i : Nat),
    sleeps (seedFailLog i k) = (i + k + 49) / 50 - (i + 49) / 50 := by
  intro k
  induction k with
  | zero => intro i; simp [seedFailLog_zero, sleeps]
  | succ k ih =>
    intro i
    rw [seedFailLog_succ]
    have e : sleeps (HwEvent.rdseed false :: ((if i % 50 = 0 then [HwEvent.usleep 1] else []) ++
        seedFailLog (i + 1) k)) =
        (if i % 50 = 0 then 1 else 0) + sleeps (seedFailLog (i + 1) k) := by
      by_cases h : i % 50 = 0 <;> simp [sleeps, h, Nat.add_comm]
    rw [e, ih (i + 1)]
    by_cases h : i % 50 = 0
    · simp only [h, if_true]; omega
    · simp only [h, if_false]; omega

theorem rdseed_loop_fail (hw : Hardware) :
    ∀ (n i : Nat) (c : Cpu) (v : Nat),
      (∀ j, j < n → (hw.rdseed64_step (c.nseed + j)).cf = false) →
      (rdseed_loop hw n i c v).ret = 0 ∧
      (rdseed_loop hw n i c v).cpu = ⟨c.nrand, c.nseed + n, c.log ++ seedFailLog i n⟩ := by
  intro n
  induction n with
  | zero => intro i c v _; simp [rdseed_loop, seedFailLog_zero]
  | succ n ih =>
    intro i c v h
    have h0 : (hw.rdseed64_step c.nseed).cf = false := by simpa using h 0 (Nat.succ_pos n)
    have hrest : ∀ j, j < n → (hw.rdseed64_step (c.nseed + 1 + j)).cf = false := by
      intro j hj
      have := h (j + 1) (by omega)
      simpa [Nat.add_assoc, Nat.add_comm 1 j] using this
    simp only [rdseed_loop, h0, Bool.false_eq_true, if_false]
    by_cases hi : i % 50 = 0
    · have ih1 := ih (i + 1)
        ⟨c.nrand, c.nseed + 1, c.log ++ [HwEvent.rdseed false] ++ [HwEvent.usleep 1]⟩
        (hw.rdseed64_step c.nseed).val hrest
      simp only [hi, if_true]
      refine ⟨ih1.1, ?_⟩
      rw [ih1.2, seedFailLog_succ]
      simp [hi, Nat.add_assoc, Nat.add_comm 1 n]
    · have ih1 := ih (i + 1) ⟨c.nrand, c.nseed + 1, c.log ++ [HwEvent.rdseed false]⟩
        (hw.rdseed64_step c.nseed).val hrest
      simp only [hi, if_false]
      refine ⟨ih1.1, ?_⟩
      rw [ih1.2, seedFailLog_succ]
      simp [hi, Nat.add_assoc, Nat.add_comm 1 n]

theorem rdseed_loop_succ (hw : Hardware) :
    ∀ (n i : Nat) (c : Cpu) (v k : Nat), k < n →
      (∀ j, j < k → (hw.rdseed64_step (c.nseed + j)).cf = false) →
      (hw.rdseed64_step (c.nseed + k)).cf = true →
      rdseed_loop hw n i c v =
        ⟨1, (hw.rdseed64_step (c.nseed + k)).val,
          ⟨c.nrand, c.nseed + k + 1, c.log ++ seedFailLog i k ++ [HwEvent.rdseed true]⟩⟩ := by
  intro n
  induction n with
  | zero => intro i c v k hk; omega
  | succ n ih =>
    intro i c v k hk hfail hok
    cases k with
    | zero =>
      have hok0 : (hw.rdseed64_step c.nseed).cf = true := by simpa using hok
      simp [rdseed_loop, hok0, seedFailLog_zero]
    | succ k =>
      have h0 : (hw.rdseed64_step c.nseed).cf = false := by simpa using hfail 0 (Nat.succ_pos k)
      have hrest : ∀ j, j < k → (hw.rdseed64_step (c.nseed + 1 + j)).cf = false := by
        intro j hj
        have := hfail (j + 1) (by omega)
        simpa [Nat.add_assoc, Nat.add_comm 1 j] using this
      have hok1 : (hw.rdseed64_step (c.nseed + 1 + k)).cf = true := by
        simpa [Nat.add_assoc, Nat.add_comm 1 k] using hok
      simp only [rdseed_loop, h0, Bool.false_eq_true, if_false]
      by_cases hi : i % 50 = 0
      · have ih1 := ih (i + 1)
          ⟨c.nrand, c.nseed + 1, c.log ++ [HwEvent.rdseed false] ++ [HwEvent.usleep 1]⟩
          (hw.rdseed64_step c.nseed).val k (by omega) hrest hok1
        simp only [hi, if_true]
        rw [ih1, seedFailLog_succ]
        simp [hi, Nat.add_assoc, Nat.add_comm 1 k]
      · have ih1 := ih (i + 1) ⟨c.nrand, c.nseed + 1, c.log ++ [HwEvent.rdseed false]⟩
          (hw.rdseed64_step c.nseed).val k (by omega) hrest hok1
        simp only [hi, if_false]
        rw [ih1, seedFailLog_succ]
        simp [hi, Nat.add_assoc, Nat.add_comm 1 k]

theorem sleeps_replicate_rdrand (n : Nat) (b : Bool) :
    sleeps (List.replicate n (HwEvent.rdrand b)) = 0 := by
  induction n with
  | zero => simp [sleeps]
  | succ n ih =>
    rw [List.replicate_succ]
    exact ih

/-- C3: `rdrand_u64_retry` returns 1 exactly when one of the first 2000
invocations of the fast instruction succeeds and 0 exactly when all 2000 fail;
when the first success is invocation `k` (counted from 0) it stores that
invocation's value and has invoked the instruction `k + 1` times, the log
gaining `k` failures followed by the success and nothing else; when all fail
it has invoked it exactly 2000 times; it never invokes it more than 2000
times, never sleeps and never invokes the seeded instruction. -/
theorem rdrand_u64_retry_bounded (hw : Hardware) (c : Cpu) (v : Nat) :
    ((rdrand_u64_retry hw c v).ret = 1 ↔
      ∃ k, k < 2000 ∧ (hw.rdrand64_step (c.nrand + k)).cf = true) ∧
    ((rdrand_u64_retry hw c v).ret = 0 ↔
      ∀ k, k < 2000 → (hw.rdrand64_step (c.nrand + k)).cf = false) ∧
    (∀ k, k < 2000 → (∀ j, j < k → (hw.rdrand64_step (c.nrand + j)).cf = false) →
      (hw.rdrand64_step (c.nrand + k)).cf = true →
      rdrand_u64_retry hw c v =
        ⟨1, (hw.rdrand64_step (c.nrand + k)).val,
          ⟨c.nrand + k + 1, c.nseed,
            c.log ++ List.replicate k (HwEvent.rdrand false) ++ [HwEvent.rdrand true]⟩⟩) ∧
    ((∀ k, k < 2000 → (hw.rdrand64_step (c.nrand + k)).cf = false) →
      (rdrand_u64_retry hw c v).cpu =
        ⟨c.nrand + 2000, c.nseed, c.log ++ List.replicate 2000 (HwEvent.rdrand false)⟩) ∧
    (rdrand_u64_retry hw c v).cpu.nrand ≤ c.nrand + 2000 ∧
    (rdrand_u64_retry hw c v).cpu.nseed = c.nseed ∧
    sleeps (rdrand_u64_retry hw c v).cpu.log = sleeps c.log := by
  have hsucc : ∀ k, k < 2000 →
      (∀ j, j < k → (hw.rdrand64_step (c.nrand + j)).cf = false) →
      (hw.rdrand64_step (c.nrand + k)).cf = true →
      rdrand_u64_retry hw c v =
        ⟨1, (hw.rdrand64_step (c.nrand + k)).val,
          ⟨c.nrand + k + 1, c.nseed,
            c.log ++ List.replicate k (HwEvent.rdrand false) ++ [HwEvent.rdrand true]⟩⟩ :=
    fun k => rdrand_loop_succ hw 2000 c v k
  have hfail : (∀ j, j < 2000 → (hw.rdrand64_step (c.nrand + j)).cf = false) →
      (rdrand_u64_retry hw c v).ret = 0 ∧
      (rdrand_u64_retry hw c v).cpu =
        ⟨c.nrand + 2000, c.nseed, c.log ++ List.replicate 2000 (HwEvent.rdrand false)⟩ :=
    rdrand_loop_fail hw 2000 c v
  rcases first_success (fun j => (hw.rdrand64_step (c.nrand + j)).cf) 2000 with h | ⟨k, hk, hf, hs⟩
  · have hr := hfail h
    have hno : ¬ ∃ k, k < 2000 ∧ (hw.rdrand64_step (c.nrand + k)).cf = true := by
      rintro ⟨k, hk, hs⟩
      have h1 : (hw.rdrand64_step (c.nrand + k)).cf = false := h k hk
      rw [hs] at h1
      exact Bool.noConfusion h1
    refine ⟨?_, ?_, ?_, ?_, ?_, ?_, ?_⟩
    · rw [hr.1]
      exact ⟨fun h1 => absurd h1 (by decide), fun h1 => absurd h1 hno⟩
    · rw [hr.1]
      exact ⟨fun _ => h, fun _ => rfl⟩
    · intro k hk _ hs
      exact absurd ⟨k, hk, hs⟩ hno
    · intro _; exact hr.2
    · rw [hr.2]
    · rw [hr.2]
    · rw [hr.2]
      show sleeps (c.log ++ List.replicate 2000 (HwEvent.rdrand false)) = sleeps c.log
      rw [sleeps_append, sleeps_replicate_rdrand, Nat.add_zero]
  · have hs1 : (hw.rdrand64_step (c.nrand + k)).cf = true := hs
    have hr := hsucc k hk hf hs1
    have hnall : ¬ ∀ k, k < 2000 → (hw.rdrand64_step (c.nrand + k)).cf = false := by
      intro hall
      have h1 := hall k hk
      rw [hs1] at h1
      exact Bool.noConfusion h1
    refine ⟨?_, ?_, ?_, ?_, ?_, ?_, ?_⟩
    · rw [hr]
      exact ⟨fun _ => ⟨k, hk, hs1⟩, fun _ => rfl⟩
    · rw [hr]
      exact ⟨fun h1 => absurd (show (1 : Int) = 0 from h1) (by decide),
        fun h1 => absurd h1 hnall⟩
    · exact hsucc
    · intro hall; exact absurd hall hnall
    · rw [hr]
      show c.nrand + k + 1 ≤ c.nrand + 2000
      omega
    · rw [hr]
    · rw [hr]
      show sleeps (c.log ++ List.replicate k (HwEvent.rdrand false) ++ [HwEvent.rdrand true]) =
        sleeps c.log
      rw [sleeps_append, sleeps_append, sleeps_replicate_rdrand]
      rfl

/-- C4: `rdseed_u64_retry` has a budget of exactly 200000 invocations: it
returns 1 exactly when one of the first 200000 invocations of the seeded
instruction succeeds and 0 exactly when all 200000 fail (and then it has made
exactly 200000 invocations); when the first success is invocation `k` (counted
from 0, so attempt `k + 1`), for any `k < 200000`, it returns 1 with that
invocation's value after `k + 1` invocations, and when `150000 <= k` it has
called `usleep` at least once before succeeding. -/
theorem rdseed_u64_retry_budget (hw : Hardware) (c : Cpu) (v : Nat) :
    ((rdseed_u64_retry hw c v).ret = 1 ↔
      ∃ k, k < 200000 ∧ (hw.rdseed64_step (c.nseed + k)).cf = true) ∧
    ((rdseed_u64_retry hw c v).ret = 0 ↔
      ∀ k, k < 200000 → (hw.rdseed64_step (c.nseed + k)).cf = false) ∧
    (∀ k, k < 200000 → (∀ j, j < k → (hw.rdseed64_step (c.nseed + j)).cf = false) →
      (hw.rdseed64_step (c.nseed + k)).cf = true →
      (rdseed_u64_retry hw c v).ret = 1 ∧
      (rdseed_u64_retry hw c v).value = (hw.rdseed64_step (c.nseed + k)).val ∧
      (rdseed_u64_retry hw c v).cpu.nseed = c.nseed + k + 1 ∧
      (rdseed_u64_retry hw c v).cpu.nrand = c.nrand ∧
      (150000 ≤ k → sleeps c.log + 1 ≤ sleeps (rdseed_u64_retry hw c v).cpu.log)) ∧
    ((∀ k, k < 200000 → (hw.rdseed64_step (c.nseed + k)).cf = false) →
      (rdseed_u64_retry hw c v).cpu.nseed = c.nseed + 200000) ∧
    (rdseed_u64_retry hw c v).cpu.nseed ≤ c.nseed + 200000 := by
  have hsucc : ∀ k, k < 200000 →
      (∀ j, j < k → (hw.rdseed64_step (c.nseed + j)).cf = false) →
      (hw.rdseed64_step (c.nseed + k)).cf = true →
      rdseed_u64_retry hw c v =
        ⟨1, (hw.rdseed64_step (c.nseed + k)).val,
          ⟨c.nrand, c.nseed + k + 1, c.log ++ seedFailLog 0 k ++ [HwEvent.rdseed true]⟩⟩ :=
    fun k => rdseed_loop_succ hw 200000 0 c v k
  have hfail : (∀ j, j < 200000 → (hw.rdseed64_step (c.nseed + j)).cf = false) →
      (rdseed_u64_retry hw c v).ret = 0 ∧
      (rdseed_u64_retry hw c v).cpu =
        ⟨c.nrand, c.nseed + 200000, c.log ++ seedFailLog 0 200000⟩ :=
    rdseed_loop_fail hw 200000 0 c v
  have hone : ∀ k, k < 200000 →
      (∀ j, j < k → (hw.rdseed64_step (c.nseed + j)).cf = false) →
      (hw.rdseed64_step (c.nseed + k)).cf = true →
      (rdseed_u64_retry hw c v).ret = 1 ∧
      (rdseed_u64_retry hw c v).value = (hw.rdseed64_step (c.nseed + k)).val ∧
      (rdseed_u64_retry hw c v).cpu.nseed = c.nseed + k + 1 ∧
      (rdseed_u64_retry hw c v).cpu.nrand = c.nrand ∧
      (150000 ≤ k → sleeps c.log + 1 ≤ sleeps (rdseed_u64_retry hw c v).cpu.log) := by
    intro k hk hf hs
    rw [hsucc k hk hf hs]
    refine ⟨rfl, rfl, rfl, rfl, ?_⟩
    intro hk2
    show sleeps c.log + 1 ≤ sleeps (c.log ++ seedFailLog 0 k ++ [HwEvent.rdseed true])
    rw [sleeps_append, sleeps_append, sleeps_seedFailLog]
    omega
  rcases first_success (fun j => (hw.rdseed64_step (c.nseed + j)).cf) 200000 with
    h | ⟨k, hk, hf, hs⟩
  · have hr := hfail h
    have hno : ¬ ∃ k, k < 200000 ∧ (hw.rdseed64_step (c.nseed + k)).cf = true := by
      rintro ⟨k, hk, hs⟩
      have h1 : (hw.rdseed64_step (c.nseed + k)).cf = false := h k hk
      rw [hs] at h1
      exact Bool.noConfusion h1
    refine ⟨?_, ?_, hone, ?_, ?_⟩
    · rw [hr.1]
      exact ⟨fun h1 => absurd h1 (by decide), fun h1 => absurd h1 hno⟩
    · rw [hr.1]
      exact ⟨fun _ => h, fun _ => rfl⟩
    · intro _; rw [hr.2]
    · rw [hr.2]
  · have hs1 : (hw.rdseed64_step (c.nseed + k)).cf = true := hs
    have hr := hone k hk hf hs1
    have hnall : ¬ ∀ k, k < 200000 → (hw.rdseed64_step (c.nseed + k)).cf = false := by
      intro hall
      have h1 := hall k hk
      rw [hs1] at h1
      exact Bool.noConfusion h1
    refine ⟨?_, ?_, hone, ?_, ?_⟩
    · rw [hr.1]
      exact ⟨fun _ => ⟨k, hk, hs1⟩, fun _ => rfl⟩
    · rw [hr.1]
      exact ⟨fun h1 => absurd h1 (by decide), fun h1 => absurd h1 hnall⟩
    · intro hall; exact absurd hall hnall
    · rw [hr.2.2.1]; omega

/-- C3 at concrete inputs: a dead fast source is given up after exactly 2000
invocations, a healthy one is invoked once. -/
theorem rdrand_u64_retry_bounded_witness :
    (rdrand_u64_retry hwRandDead cpu0 0).ret = 0 ∧
    (rdrand_u64_retry hwRandDead cpu0 0).cpu =
      ⟨0 + 2000, 0, [] ++ List.replicate 2000 (HwEvent.rdrand false)⟩ ∧
    rdrand_u64_retry hwGood cpu0 0 = ⟨1, 0, ⟨0 + 0 + 1, 0, [HwEvent.rdrand true]⟩⟩ :=
  ⟨((rdrand_u64_retry_bounded hwRandDead cpu0 0).2.1).mpr (fun _ _ => rfl),
    (rdrand_u64_retry_bounded hwRandDead cpu0 0).2.2.2.1 (fun _ _ => rfl),
    (rdrand_u64_retry_bounded hwGood cpu0 0).2.2.1 0 (by decide)
      (fun j hj => absurd hj (Nat.not_lt_zero j)) rfl⟩

/-- C4 at a concrete input: the first success of the seeded source is attempt
150001; the function still succeeds, with that attempt's value, and has slept
before. -/
theorem rdseed_u64_retry_budget_witness :
    (rdseed_u64_retry hwSeedLate cpu0 0).ret = 1 ∧
    (rdseed_u64_retry hwSeedLate cpu0 0).value = 151000 ∧
    (rdseed_u64_retry hwSeedLate cpu0 0).cpu.nseed = 150001 ∧
    (rdseed_u64_retry hwSeedLate cpu0 0).cpu.nrand = 0 ∧
    sleeps cpu0.log + 1 ≤ sleeps (rdseed_u64_retry hwSeedLate cpu0 0).cpu.log :=
  have h := (rdseed_u64_retry_budget hwSeedLate cpu0 0).2.2.1 150000 (by decide)
    (fun j hj => by simp only [hwSeedLate, cpu0]; simp; omega) (by decide)
  ⟨h.1, h.2.1, h.2.2.1, h.2.2.2.1, h.2.2.2.2 (le_refl _)⟩

/-- C5, as stated, fails: on hardware whose seeded instruction fails once and
then succeeds, the first success is attempt 2, within the first 50 attempts,
and `rdseed_u64_retry` has called `usleep` once, not `(2 - 1) / 50 = 0`
times. -/
theorem rdseed_yield_counterexample :
    (hwSeedSecond.rdseed64_step 0).cf = false ∧
    (hwSeedSecond.rdseed64_step 1).cf = true ∧
    (rdseed_u64_retry hwSeedSecond cpu0 0).ret = 1 ∧
    (rdseed_u64_retry hwSeedSecond cpu0 0).cpu.log =
      [HwEvent.rdseed false, HwEvent.usleep 1, HwEvent.rdseed true] ∧
    sleeps (rdseed_u64_retry hwSeedSecond cpu0 0).cpu.log = 1 ∧
    sleeps (rdseed_u64_retry hwSeedSecond cpu0 0).cpu.log ≠ (2 - 1) / 50 := by
  decide

/-- C5, amended: in every run of `rdseed_u64_retry` a `usleep(1)` follows a
failed invocation exactly when the loop counter `j` of that invocation is a
multiple of 50 (its attempt number `j + 1` is 1 modulo 50). When the first
success is invocation `k` (counted from 0, so attempt `k + 1`), the log gains
exactly the `k` failed invocations, each followed by its `usleep` under that
condition, and then the success; the number of `usleep` calls is
`(k + 49) / 50`, which is zero only for `k = 0`. When all 200000 invocations
fail, the function returns 0 and the log gains exactly the 200000 failed
invocations, each followed by its `usleep` under the same condition, and
nothing after the last one; that is 4000 `usleep` calls. -/
theorem rdseed_u64_retry_yields (hw : Hardware) (c : Cpu) (v : Nat) :
    (∀ k, k < 200000 → (∀ j, j < k → (hw.rdseed64_step (c.nseed + j)).cf = false) →
      (hw.rdseed64_step (c.nseed + k)).cf = true →
      (rdseed_u64_retry hw c v).cpu.log =
        c.log ++ (List.range k).flatMap
          (fun j => HwEvent.rdseed false :: (if j % 50 = 0 then [HwEvent.usleep 1] else [])) ++
          [HwEvent.rdseed true] ∧
      sleeps (rdseed_u64_retry hw c v).cpu.log = sleeps c.log + (k + 49) / 50 ∧
      (sleeps (rdseed_u64_retry hw c v).cpu.log = sleeps c.log ↔ k = 0)) ∧
    ((∀ j, j < 200000 → (hw.rdseed64_step (c.nseed + j)).cf = false) →
      (rdseed_u64_retry hw c v).ret = 0 ∧
      (rdseed_u64_retry hw c v).cpu.log =
        c.log ++ (List.range 200000).flatMap
          (fun j => HwEvent.rdseed false :: (if j % 50 = 0 then [HwEvent.usleep 1] else [])) ∧
      sleeps (rdseed_u64_retry hw c v).cpu.log = sleeps c.log + 4000) := by
  constructor
  · intro k hk hf hs
    have hr : rdseed_u64_retry hw c v =
        ⟨1, (hw.rdseed64_step (c.nseed + k)).val,
          ⟨c.nrand, c.nseed + k + 1, c.log ++ seedFailLog 0 k ++ [HwEvent.rdseed true]⟩⟩ :=
      rdseed_loop_succ hw 200000 0 c v k hk hf hs
    have hcount : sleeps (rdseed_u64_retry hw c v).cpu.log = sleeps c.log + (k + 49) / 50 := by
      rw [hr]
      show sleeps (c.log ++ seedFailLog 0 k ++ [HwEvent.rdseed true]) = _
      rw [sleeps_append, sleeps_append, sleeps_seedFailLog]
      have : sleeps [HwEvent.rdseed true] = 0 := rfl
      omega
    refine ⟨?_, hcount, ?_⟩
    · rw [hr]
      show c.log ++ seedFailLog 0 k ++ [HwEvent.rdseed true] = _
      rw [seedFailLog, List.range_eq_range']
    · rw [hcount]
      omega
  · intro hall
    have hr : (rdseed_u64_retry hw c v).ret = 0 ∧
        (rdseed_u64_retry hw c v).cpu =
          ⟨c.nrand, c.nseed + 200000, c.log ++ seedFailLog 0 200000⟩ :=
      rdseed_loop_fail hw 200000 0 c v hall
    refine ⟨hr.1, ?_, ?_⟩
    · rw [hr.2]
      show c.log ++ seedFailLog 0 200000 = _
      rw [seedFailLog, List.range_eq_range']
    · rw [hr.2]
      show sleeps (c.log ++ seedFailLog 0 200000) = _
      rw [sleeps_append, sleeps_seedFailLog]

/-- The amended C5 at two concrete inputs: a first success at the second
attempt, after one `usleep`; and a seeded source that never succeeds, given up
after 200000 invocations and 4000 `usleep` calls, the last event of the log
being the failed invocation with counter 199999. -/
theorem rdseed_u64_retry_yields_witness :
    ((rdseed_u64_retry hwSeedSecond cpu0 0).cpu.log =
        cpu0.log ++ (List.range 1).flatMap
          (fun j => HwEvent.rdseed false :: (if j % 50 = 0 then [HwEvent.usleep 1] else [])) ++
          [HwEvent.rdseed true] ∧
      sleeps (rdseed_u64_retry hwSeedSecond cpu0 0).cpu.log = sleeps cpu0.log + (1 + 49) / 50 ∧
      (sleeps (rdseed_u64_retry hwSeedSecond cpu0 0).cpu.log = sleeps cpu0.log ↔ 1 = 0)) ∧
    ((rdseed_u64_retry hwSeedDead cpu0 0).ret = 0 ∧
      (rdseed_u64_retry hwSeedDead cpu0 0).cpu.log =
        cpu0.log ++ (List.range 200000).flatMap
          (fun j => HwEvent.rdseed false :: (if j % 50 = 0 then [HwEvent.usleep 1] else [])) ∧
      sleeps (rdseed_u64_retry hwSeedDead cpu0 0).cpu.log = sleeps cpu0.log + 4000) :=
  ⟨(rdseed_u64_retry_yields hwSeedSecond cpu0 0).1 1 (by decide)
      (by intro j hj; have : j = 0 := by omega
          subst this; rfl)
      (by decide),
    (rdseed_u64_retry_yields hwSeedDead cpu0 0).2 (fun _ _ => rfl)⟩

/-! ## The reference collection -/

theorem rdrand_u64_retry_indep (hw : Hardware) (c : Cpu) (v : Nat) :
    rdrand_u64_retry hw c v = rdrand_u64_retry hw c 0 := rfl

theorem rdseed_u64_retry_indep (hw : Hardware) (c : Cpu) (v : Nat) :
    rdseed_u64_retry hw c v = rdseed_u64_retry hw c 0 := rfl

theorem acquire_succ (hw : Hardware) (n : Nat) (c : Cpu) :
    acquire hw (n + 1) c =
      if (rdrand_u64_retry hw c 0).ret = 0 then
        ⟨[], [], some Src.rdrand, (rdrand_u64_retry hw c 0).cpu⟩
      else if (rdseed_u64_retry hw (rdrand_u64_retry hw c 0).cpu 0).ret = 0 then
        ⟨[(rdrand_u64_retry hw c 0).value], [], some Src.rdseed,
          (rdseed_u64_retry hw (rdrand_u64_retry hw c 0).cpu 0).cpu⟩
      else
        ⟨(rdrand_u64_retry hw c 0).value ::
            (acquire hw n (rdseed_u64_retry hw (rdrand_u64_retry hw c 0).cpu 0).cpu).rand,
          (rdseed_u64_retry hw (rdrand_u64_retry hw c 0).cpu 0).value ::
            (acquire hw n (rdseed_u64_retry hw (rdrand_u64_retry hw c 0).cpu 0).cpu).seed,
          (acquire hw n (rdseed_u64_retry hw (rdrand_u64_retry hw c 0).cpu 0).cpu).failed,
          (acquire hw n (rdseed_u64_retry hw (rdrand_u64_retry hw c 0).cpu 0).cpu).cpu⟩ := rfl

theorem acquire_ok_length (hw : Hardware) :
    ∀ (n : Nat) (c : Cpu), (acquire hw n c).failed = none →
      (acquire hw n c).rand.length = n ∧ (acquire hw n c).seed.length = n := by
  intro n
  induction n with
  | zero => intro c _; exact ⟨rfl, rfl⟩
  | succ n ih =>
    intro c
    rw [acquire_succ]
    split_ifs with h1 h2
    · intro h; cases h
    · intro h; cases h
    · intro h
      have := ih _ h
      simp [this.1, this.2]

theorem acquire_failed_length (hw : Hardware) :
    ∀ (n : Nat) (c : Cpu) (src : Src), (acquire hw n c).failed = some src →
      (acquire hw n c).seed.length < n ∧
      (src = Src.rdrand → (acquire hw n c).rand.length = (acquire hw n c).seed.length) ∧
      (src = Src.rdseed → (acquire hw n c).rand.length = (acquire hw n c).seed.length + 1) := by
  intro n
  induction n with
  | zero => intro c src h; cases h
  | succ n ih =>
    intro c src
    rw [acquire_succ]
    by_cases h1 : (rdrand_u64_retry hw c 0).ret = 0
    · rw [if_pos h1]
      intro h
      have : Src.rdrand = src := by simpa using h
      subst this
      simp
    · rw [if_neg h1]
      by_cases h2 : (rdseed_u64_retry hw (rdrand_u64_retry hw c 0).cpu 0).ret = 0
      · rw [if_pos h2]
        intro h
        have : Src.rdseed = src := by simpa using h
        subst this
        simp
      · rw [if_neg h2]
        intro h
        obtain ⟨h3, h4, h5⟩ := ih _ src h
        simp only [List.length_cons]
        exact ⟨by omega, fun e => by have := h4 e; omega, fun e => by have := h5 e; omega⟩

theorem acquire_add (hw : Hardware) :
    ∀ (a b : Nat) (c : Cpu),
      acquire hw (a + b) c =
        if (acquire hw a c).failed = none then
          ⟨(acquire hw a c).rand ++ (acquire hw b (acquire hw a c).cpu).rand,
            (acquire hw a c).seed ++ (acquire hw b (acquire hw a c).cpu).seed,
            (acquire hw b (acquire hw a c).cpu).failed,
            (acquire hw b (acquire hw a c).cpu).cpu⟩
        else acquire hw a c := by
  intro a
  induction a with
  | zero => intro b c; simp [acquire]
  | succ a ih =>
    intro b c
    have e : a + 1 + b = (a + b) + 1 := by omega
    rw [e, acquire_succ, acquire_succ]
    split_ifs <;> simp_all

/-! ## The chunk buffers and the inner loop -/

theorem overlay_below : ∀ (xs : List Nat) (b : Int → Nat) (i j : Int), j < i →
    overlay b i xs j = b j := by
  intro xs
  induction xs with
  | nil => intro b i j _; rfl
  | cons x xs ih =>
    intro b i j hj
    rw [overlay, ih _ _ _ (by omega), Function.update_noteq (by omega)]

theorem overlay_get : ∀ (xs : List Nat) (b : Int → Nat) (i : Int) (k : Nat)
    (h : k < xs.length), overlay b i xs (i + k) = xs[k] := by
  intro xs
  induction xs with
  | nil => intro b i k h; simp at h
  | cons x xs ih =>
    intro b i k h
    cases k with
    | zero =>
      rw [overlay]
      simp only [Nat.cast_zero, add_zero, List.getElem_cons_zero]
      rw [overlay_below _ _ _ _ (by omega), Function.update_same]
    | succ k =>
      rw [overlay]
      have e : i + ((k + 1 : Nat) : Int) = (i + 1) + (k : Int) := by push_cast; ring
      rw [e, ih _ _ k (by simpa using h)]
      simp

theorem read_overlay (xs : List Nat) (b : Int → Nat) (n : Nat) (h : xs.length = n) :
    (List.range n).map (fun (k : Nat) => overlay b 0 xs (k : Int)) = xs := by
  apply List.ext_getElem
  · simp [h]
  · intro k h1 h2
    simp only [List.getElem_map, List.getElem_range]
    have := overlay_get xs b 0 k h2
    simpa using this

theorem fill_loop_spec (hw : Hardware) (n : Int) (hn : n ≤ CHUNK_SIZE) :
    ∀ (m fuel : Nat) (i : Int) (b1 b2 : Int → Nat) (c : Cpu),
      0 ≤ i → n - i = m → m < fuel →
      ((acquire hw m c).failed = none →
        fill_loop hw n fuel i b1 b2 c =
          Fill.filled (overlay b1 i (acquire hw m c).rand) (overlay b2 i (acquire hw m c).seed)
            (acquire hw m c).cpu) ∧
      (∀ src, (acquire hw m c).failed = some src →
        fill_loop hw n fuel i b1 b2 c = Fill.failed src (acquire hw m c).cpu) := by
  intro m
  induction m with
  | zero =>
    intro fuel i b1 b2 c hi hm hfuel
    obtain ⟨fuel, rfl⟩ : ∃ f, fuel = f + 1 := ⟨fuel - 1, by omega⟩
    have hlt : ¬ i < n := by push_cast at hm; omega
    constructor
    · intro _
      simp [fill_loop, hlt, acquire, overlay]
    · intro src h
      simp [acquire] at h
  | succ m ih =>
    intro fuel i b1 b2 c hi hm hfuel
    obtain ⟨fuel, rfl⟩ : ∃ f, fuel = f + 1 := ⟨fuel - 1, by omega⟩
    have hlt : i < n := by push_cast at hm; omega
    have hb : 0 ≤ i ∧ i < CHUNK_SIZE := ⟨hi, by omega⟩
    have ih1 := fun b1 b2 c => ih fuel (i + 1) b1 b2 c (by omega) (by push_cast at hm ⊢; omega)
      (by omega)
    rw [acquire_succ]
    simp only [fill_loop, hlt, hb, if_true, and_self,
      rdrand_u64_retry_indep hw c (b1 i)]
    by_cases h1 : (rdrand_u64_retry hw c 0).ret = 0
    · simp only [h1, if_true]
      constructor
      · intro h; cases h
      · intro src h
        have : Src.rdrand = src := by simpa using h
        subst this
        rfl
    · simp only [h1, if_false, rdseed_u64_retry_indep hw _ (b2 i)]
      by_cases h2 : (rdseed_u64_retry hw (rdrand_u64_retry hw c 0).cpu 0).ret = 0
      · simp only [h2, if_true]
        constructor
        · intro h; cases h
        · intro src h
          have : Src.rdseed = src := by simpa using h
          subst this
          rfl
      · simp only [h2, if_false]
        have ih2 := ih1 (Function.update b1 i (rdrand_u64_retry hw c 0).value)
          (Function.update b2 i (rdseed_u64_retry hw (rdrand_u64_retry hw c 0).cpu 0).value)
          (rdseed_u64_retry hw (rdrand_u64_retry hw c 0).cpu 0).cpu
        constructor
        · intro h
          rw [ih2.1 h]
          rfl
        · intro src h
          rw [ih2.2 src h]

/-! ## One iteration of the collection loop -/

theorem fappend_nil (f : Option (List Nat)) : fappend f [] = f := by
  cases f <;> simp [fappend]

theorem fappend_fappend (f : Option (List Nat)) (a b : List Nat) :
    fappend (fappend f a) b = fappend f (a ++ b) := by
  cases f <;> simp [fappend]

theorem bytesOf_nil : bytesOf [] = [] := rfl

theorem bytesOf_append (a b : List Nat) : bytesOf (a ++ b) = bytesOf a ++ bytesOf b := by
  simp [bytesOf, List.flatMap_append]

theorem fwrite_overlay (xs : List Nat) (b : Int → Nat) (n : Nat) (h : xs.length = n)
    (file : Option (List Nat)) :
    fwrite (overlay b 0 xs) SIZEOF_ULL n file = fappend file (bytesOf xs) := by
  unfold fwrite
  rw [read_overlay xs b n h]
  rfl

theorem to_read_eq_min (r : Int) :
    (if r > CHUNK_SIZE then CHUNK_SIZE else r) = min CHUNK_SIZE r := by
  by_cases h : r > CHUNK_SIZE
  · rw [if_pos h, min_eq_left (le_of_lt h)]
  · rw [if_neg h, min_eq_right (not_lt.mp h)]

theorem chunkTrace_one (total c : Int) :
    chunkTrace total 1 c =
      [Event.chunk c (min CHUNK_SIZE (total - c)),
        Event.fwrite Src.rdrand (min CHUNK_SIZE (total - c)),
        Event.fwrite Src.rdseed (min CHUNK_SIZE (total - c))] ++
      (if (c + min CHUNK_SIZE (total - c)) % (CHUNK_SIZE * 20) = 0 then
        [Event.printf (Msg.progress (c + min CHUNK_SIZE (total - c)) total)] else []) := by
  simp [chunkTrace]

theorem chunkTrace_succ (total : Int) (m : Nat) (c : Int) :
    chunkTrace total (m + 1) c =
      chunkTrace total 1 c ++ chunkTrace total m (c + min CHUNK_SIZE (total - c)) := by
  simp [chunkTrace]

theorem collect_loop_step_ok (hw : Hardware) (total : Int) (inner_fuel fuel : Nat)
    (c : Int) (b1 b2 : Int → Nat) (w : World)
    (htot : total ≤ LLONG_MAX) (hc0 : 0 ≤ c) (hc : c < total)
    (hfuel : (min CHUNK_SIZE (total - c)).toNat < inner_fuel)
    (hok : (acquire hw (min CHUNK_SIZE (total - c)).toNat w.cpu).failed = none) :
    collect_loop hw total inner_fuel (fuel + 1) c b1 b2 w =
      collect_loop hw total inner_fuel fuel (c + min CHUNK_SIZE (total - c))
        (overlay b1 0 (acquire hw (min CHUNK_SIZE (total - c)).toNat w.cpu).rand)
        (overlay b2 0 (acquire hw (min CHUNK_SIZE (total - c)).toNat w.cpu).seed)
        ⟨(acquire hw (min CHUNK_SIZE (total - c)).toNat w.cpu).cpu,
          fappend w.rdrand_raw
            (bytesOf (acquire hw (min CHUNK_SIZE (total - c)).toNat w.cpu).rand),
          fappend w.rdseed_raw
            (bytesOf (acquire hw (min CHUNK_SIZE (total - c)).toNat w.cpu).seed),
          w.trace ++ chunkTrace total 1 c⟩ := by
  have hn1 : 1 ≤ min CHUNK_SIZE (total - c) := by
    simp only [CHUNK_SIZE]; omega
  have hn2 : min CHUNK_SIZE (total - c) ≤ CHUNK_SIZE := min_le_left _ _
  have hn3 : min CHUNK_SIZE (total - c) ≤ total - c := min_le_right _ _
  have hll1 : in_llong (total - c) := by
    simp only [in_llong, LLONG_MIN, LLONG_MAX] at *; omega
  have hll2 : in_llong (c + min CHUNK_SIZE (total - c)) := by
    simp only [in_llong, LLONG_MIN, LLONG_MAX] at *; omega
  have hfill := (fill_loop_spec hw (min CHUNK_SIZE (total - c)) hn2
    (min CHUNK_SIZE (total - c)).toNat inner_fuel 0 b1 b2 w.cpu (le_refl 0)
    (by rw [Int.toNat_of_nonneg (by omega)]; ring) hfuel).1 hok
  have hlen := acquire_ok_length hw _ _ hok
  have hmod : Int.tmod (c + min CHUNK_SIZE (total - c)) (CHUNK_SIZE * 20) =
      (c + min CHUNK_SIZE (total - c)) % (CHUNK_SIZE * 20) :=
    Int.tmod_eq_emod (by omega) (by decide)
  rw [collect_loop]
  simp only [hc, if_true, hll1, to_read_eq_min, hfill, hn2, hll2, hmod, and_true,
    show (0 : Int) ≤ min CHUNK_SIZE (total - c) from by omega,
    fwrite_overlay _ _ _ hlen.1, fwrite_overlay _ _ _ hlen.2, chunkTrace_one]
  by_cases hp : (c + min CHUNK_SIZE (total - c)) % (CHUNK_SIZE * 20) = 0
  · simp [hp]
  · simp [hp]

theorem collect_loop_step_fail (hw : Hardware) (total : Int) (inner_fuel fuel : Nat)
    (c : Int) (b1 b2 : Int → Nat) (w : World) (src : Src)
    (htot : total ≤ LLONG_MAX) (hc0 : 0 ≤ c) (hc : c < total)
    (hfuel : (min CHUNK_SIZE (total - c)).toNat < inner_fuel)
    (hf : (acquire hw (min CHUNK_SIZE (total - c)).toNat w.cpu).failed = some src) :
    collect_loop hw total inner_fuel (fuel + 1) c b1 b2 w =
      Loop.aborted
        ⟨(acquire hw (min CHUNK_SIZE (total - c)).toNat w.cpu).cpu,
          w.rdrand_raw, w.rdseed_raw,
          w.trace ++ [Event.chunk c (min CHUNK_SIZE (total - c)),
            Event.printf (failureMsg src)]⟩ := by
  have hn1 : 1 ≤ min CHUNK_SIZE (total - c) := by
    simp only [CHUNK_SIZE]; omega
  have hn2 : min CHUNK_SIZE (total - c) ≤ CHUNK_SIZE := min_le_left _ _
  have hll1 : in_llong (total - c) := by
    simp only [in_llong, LLONG_MIN, LLONG_MAX] at *; omega
  have hfill := (fill_loop_spec hw (min CHUNK_SIZE (total - c)) hn2
    (min CHUNK_SIZE (total - c)).toNat inner_fuel 0 b1 b2 w.cpu (le_refl 0)
    (by rw [Int.toNat_of_nonneg (by omega)]; ring) hfuel).2 src hf
  rw [collect_loop]
  simp only [hc, if_true, hll1, to_read_eq_min, hfill]
  simp

/-! ## The whole collection loop -/

theorem nchunks_step (r : Int) (h : 0 < r) :
    nchunks r = nchunks (r - min CHUNK_SIZE r) + 1 := by
  simp only [nchunks, CHUNK_SIZE]
  omega

theorem collect_loop_spec (hw : Hardware) (total : Int) (inner_fuel : Nat)
    (htot : total ≤ LLONG_MAX) (hif : (min CHUNK_SIZE total).toNat < inner_fuel) :
    ∀ (fuel : Nat) (c : Int) (b1 b2 : Int → Nat) (w : World),
      0 ≤ c → c ≤ total → (total - c).toNat < fuel →
      ((acquire hw (total - c).toNat w.cpu).failed = none →
        collect_loop hw total inner_fuel fuel c b1 b2 w =
          Loop.done (doneWorld total c w (acquire hw (total - c).toNat w.cpu))) ∧
      (∀ src, (acquire hw (total - c).toNat w.cpu).failed = some src →
        collect_loop hw total inner_fuel fuel c b1 b2 w =
          Loop.aborted (abortWorld total c w (acquire hw (total - c).toNat w.cpu) src)) := by
  intro fuel
  induction fuel with
  | zero => intro c b1 b2 w _ _ h; omega
  | succ fuel ih =>
    intro c b1 b2 w hc0 hc hfuel
    rcases eq_or_lt_of_le hc with heq | hlt
    · subst heq
      have hnl : ¬ c < c := lt_irrefl c
      have hn0 : nchunks 0 = 0 := by decide
      simp [collect_loop, hnl, acquire, doneWorld, hn0, chunkTrace, fappend_nil, bytesOf_nil]
    · have hn1 : 1 ≤ min CHUNK_SIZE (total - c) := by
        simp only [CHUNK_SIZE]; omega
      have hn2 : min CHUNK_SIZE (total - c) ≤ CHUNK_SIZE := min_le_left _ _
      have hn3 : min CHUNK_SIZE (total - c) ≤ total - c := min_le_right _ _
      have hfi : (min CHUNK_SIZE (total - c)).toNat < inner_fuel := by
        simp only [CHUNK_SIZE] at *; omega
      have esplit : (total - c).toNat =
          (min CHUNK_SIZE (total - c)).toNat + (total - (c + min CHUNK_SIZE (total - c))).toNat := by
        omega
      rw [esplit, acquire_add]
      by_cases h1 : (acquire hw (min CHUNK_SIZE (total - c)).toNat w.cpu).failed = none
      · have hlen := acquire_ok_length hw _ _ h1
        rw [if_pos h1, collect_loop_step_ok hw total inner_fuel fuel c b1 b2 w htot hc0 hlt hfi h1]
        have IH := ih (c + min CHUNK_SIZE (total - c))
          (overlay b1 0 (acquire hw (min CHUNK_SIZE (total - c)).toNat w.cpu).rand)
          (overlay b2 0 (acquire hw (min CHUNK_SIZE (total - c)).toNat w.cpu).seed)
          ⟨(acquire hw (min CHUNK_SIZE (total - c)).toNat w.cpu).cpu,
            fappend w.rdrand_raw
              (bytesOf (acquire hw (min CHUNK_SIZE (total - c)).toNat w.cpu).rand),
            fappend w.rdseed_raw
              (bytesOf (acquire hw (min CHUNK_SIZE (total - c)).toNat w.cpu).seed),
            w.trace ++ chunkTrace total 1 c⟩ (by omega) (by omega) (by omega)
        have hnc : nchunks (total - c) =
            nchunks (total - (c + min CHUNK_SIZE (total - c))) + 1 := by
          rw [nchunks_step (total - c) (by omega)]
          congr 2
          ring
        constructor
        · intro h2
          rw [IH.1 h2]
          simp only [doneWorld, fappend_fappend, bytesOf_append, hnc, List.append_assoc]
          rw [chunkTrace_succ total (nchunks _) c]
        · intro src h2
          rw [IH.2 src h2]
          have hfl := acquire_failed_length hw _ _ src h2
          have hfull : min CHUNK_SIZE (total - c) = 65536 := by
            simp only [CHUNK_SIZE] at *; omega
          have hl1 : (acquire hw (min CHUNK_SIZE (total - c)).toNat w.cpu).rand.length = 65536 := by
            rw [hlen.1, hfull]; rfl
          have hl2 : (acquire hw (min CHUNK_SIZE (total - c)).toNat w.cpu).seed.length = 65536 := by
            rw [hlen.2, hfull]; rfl
          have hq : ∀ j : Nat, (65536 + j) / 65536 = j / 65536 + 1 := by intro j; omega
          have ht : ∀ (xs ys : List Nat) (t : Nat), xs.length = 65536 →
              List.take (65536 * (t + 1)) (xs ++ ys) = xs ++ List.take (65536 * t) ys := by
            intro xs ys t hx
            have : 65536 * (t + 1) = xs.length + 65536 * t := by omega
            rw [this, List.take_append]
          simp only [abortWorld, List.length_append, hl2, hq, ht _ _ _ hl1, ht _ _ _ hl2,
            fappend_fappend, bytesOf_append, List.append_assoc]
          rw [chunkTrace_succ total (_ / 65536) c, hfull]
          have he : ∀ j : Nat, c + 65536 * ((j + 1 : Nat) : Int) = c + 65536 + 65536 * (j : Int) := by
            intro j; push_cast; ring
          simp only [he, List.append_assoc]
      · rw [if_neg h1]
        constructor
        · intro h2; exact absurd h2 h1
        · intro src h2
          have hfl := acquire_failed_length hw _ _ src h2
          have hq : (acquire hw (min CHUNK_SIZE (total - c)).toNat w.cpu).seed.length / 65536 = 0 := by
            simp only [CHUNK_SIZE] at *; omega
          rw [collect_loop_step_fail hw total inner_fuel fuel c b1 b2 w src htot hc0 hlt hfi h2]
          simp [abortWorld, hq, chunkTrace, fappend_nil, bytesOf_nil]

/-! ## `main` -/

theorem main_run (env : Env) (hw : Hardware) (fuel : Nat) (argv0 : String) (total : Int)
    (w : World) (henv : env.allOk) :
    main env hw fuel 2 argv0 total w =
      match collect_loop hw total fuel fuel 0 env.heap_rdrand env.heap_rdseed
          (startWorld total w) with
      | Loop.done w5 => Outcome.exit 0 { w5 with trace := w5.trace ++ cleanupTrace }
      | Loop.aborted w5 => Outcome.exit 1 w5
      | Loop.undefined f => Outcome.undefined f
      | Loop.timeout => Outcome.timeout := by
  obtain ⟨h1, h2, h3, h4⟩ := henv
  simp [main, h1, h2, h3, h4, fopen_wb, startWorld, setupTrace, cleanupTrace]

theorem main_done (env : Env) (hw : Hardware) (fuel : Nat) (argv0 : String) (total : Int)
    (w : World) (henv : env.allOk) (h0 : 0 ≤ total) (hmax : total ≤ LLONG_MAX)
    (hfuel : total.toNat < fuel)
    (hok : (acquire hw total.toNat w.cpu).failed = none) :
    main env hw fuel 2 argv0 total w =
      Outcome.exit 0
        ⟨(acquire hw total.toNat w.cpu).cpu,
          some (bytesOf (acquire hw total.toNat w.cpu).rand),
          some (bytesOf (acquire hw total.toNat w.cpu).seed),
          w.trace ++ setupTrace total ++ chunkTrace total (nchunks total) 0 ++ cleanupTrace⟩ := by
  have hif : (min CHUNK_SIZE total).toNat < fuel := by
    simp only [CHUNK_SIZE]; omega
  have h := (collect_loop_spec hw total fuel hmax hif fuel 0 env.heap_rdrand env.heap_rdseed
    (startWorld total w) (le_refl 0) h0 (by simpa using hfuel)).1
  simp only [sub_zero] at h
  rw [main_run env hw fuel argv0 total w henv, h hok]
  simp [doneWorld, startWorld, fappend]

theorem main_abort (env : Env) (hw : Hardware) (fuel : Nat) (argv0 : String) (total : Int)
    (w : World) (src : Src) (henv : env.allOk) (h0 : 0 ≤ total) (hmax : total ≤ LLONG_MAX)
    (hfuel : total.toNat < fuel)
    (hf : (acquire hw total.toNat w.cpu).failed = some src) :
    main env hw fuel 2 argv0 total w =
      Outcome.exit 1
        (abortWorld total 0 (startWorld total w) (acquire hw total.toNat w.cpu) src) := by
  have hif : (min CHUNK_SIZE total).toNat < fuel := by
    simp only [CHUNK_SIZE]; omega
  have h := (collect_loop_spec hw total fuel hmax hif fuel 0 env.heap_rdrand env.heap_rdseed
    (startWorld total w) (le_refl 0) h0 (by simpa using hfuel)).2 src
  simp only [sub_zero] at h
  rw [main_run env hw fuel argv0 total w henv, h hf]
  rfl

theorem main_negative (env : Env) (hw : Hardware) (fuel : Nat) (argv0 : String) (total : Int)
    (w : World) (henv : env.allOk) (hneg : total ≤ 0) (hfuel : 0 < fuel) :
    main env hw fuel 2 argv0 total w =
      Outcome.exit 0 ⟨w.cpu, some [], some [], w.trace ++ setupTrace total ++ cleanupTrace⟩ := by
  obtain ⟨fuel, rfl⟩ : ∃ f, fuel = f + 1 := ⟨fuel - 1, by omega⟩
  have hnl : ¬ (0 : Int) < total := by omega
  rw [main_run env hw (fuel + 1) argv0 total w henv]
  simp [collect_loop, hnl, startWorld]

theorem le_bytes_length (size v : Nat) : (le_bytes size v).length = size := by
  simp [le_bytes]

theorem bytesOf_length (xs : List Nat) : (bytesOf xs).length = 8 * xs.length := by
  induction xs with
  | nil => rfl
  | cons x xs ih =>
    have e : bytesOf (x :: xs) = le_bytes SIZEOF_ULL x ++ bytesOf xs := rfl
    rw [e, List.length_append, ih, le_bytes_length, List.length_cons, SIZEOF_ULL]
    omega

/-- A concrete run: two samples from hardware that always succeeds. -/
theorem main_two_samples :
    main envOk hwGood 3 2 "collector" 2 world0 =
      Outcome.exit 0
        ⟨⟨2, 2, [HwEvent.rdrand true, HwEvent.rdseed true, HwEvent.rdrand true,
            HwEvent.rdseed true]⟩,
          some [0, 0, 0, 0, 0, 0, 0, 0, 1, 0, 0, 0, 0, 0, 0, 0],
          some [232, 3, 0, 0, 0, 0, 0, 0, 233, 3, 0, 0, 0, 0, 0, 0],
          [Event.fopen Src.rdrand true, Event.fopen Src.rdseed true,
            Event.malloc Src.rdrand true, Event.malloc Src.rdseed true,
            Event.printf (Msg.collecting 2), Event.chunk 0 2,
            Event.fwrite Src.rdrand 2, Event.fwrite Src.rdseed 2,
            Event.printf Msg.done, Event.free Src.rdrand, Event.free Src.rdseed,
            Event.fclose Src.rdrand, Event.fclose Src.rdseed]⟩ := by
  decide

/-- C1: when both files open, both buffers are allocated, `0 <= total` fits
`long long` and no acquisition of the `total` sample pairs is exhausted,
`main` returns 0, each output file holds exactly the `total` values acquired
from its source, that is `total * 8` bytes, so the two files have the same
length; for `total = 0` both files are empty and the machine state is
untouched (no instruction was invoked). -/
theorem main_collects_total (env : Env) (hw : Hardware) (fuel : Nat) (argv0 : String)
    (total : Int) (w : World) (henv : env.allOk) (h0 : 0 ≤ total) (hmax : total ≤ LLONG_MAX)
    (hfuel : total.toNat < fuel)
    (hok : (acquire hw total.toNat w.cpu).failed = none) :
    ∃ w', main env hw fuel 2 argv0 total w = Outcome.exit 0 w' ∧
      w'.rdrand_raw = some (bytesOf (acquire hw total.toNat w.cpu).rand) ∧
      w'.rdseed_raw = some (bytesOf (acquire hw total.toNat w.cpu).seed) ∧
      ((acquire hw total.toNat w.cpu).rand.length : Int) = total ∧
      ((acquire hw total.toNat w.cpu).seed.length : Int) = total ∧
      ((bytesOf (acquire hw total.toNat w.cpu).rand).length : Int) = total * 8 ∧
      ((bytesOf (acquire hw total.toNat w.cpu).seed).length : Int) = total * 8 ∧
      (bytesOf (acquire hw total.toNat w.cpu).rand).length =
        (bytesOf (acquire hw total.toNat w.cpu).seed).length ∧
      (total = 0 → w'.rdrand_raw = some [] ∧ w'.rdseed_raw = some [] ∧ w'.cpu = w.cpu) := by
  have hlen := acquire_ok_length hw _ _ hok
  refine ⟨_, main_done env hw fuel argv0 total w henv h0 hmax hfuel hok, rfl, rfl, ?_, ?_, ?_,
    ?_, ?_, ?_⟩
  · rw [hlen.1]; omega
  · rw [hlen.2]; omega
  · rw [bytesOf_length, hlen.1]; omega
  · rw [bytesOf_length, hlen.2]; omega
  · rw [bytesOf_length, bytesOf_length, hlen.1, hlen.2]
  · intro hz
    subst hz
    exact ⟨rfl, rfl, rfl⟩

/-- C1 at a concrete input: two samples from hardware that always succeeds. -/
theorem main_collects_total_witness :
    ∃ w', main envOk hwGood 3 2 "collector" 2 world0 = Outcome.exit 0 w' ∧
      w'.rdrand_raw = some (bytesOf (acquire hwGood (2 : Int).toNat world0.cpu).rand) ∧
      w'.rdseed_raw = some (bytesOf (acquire hwGood (2 : Int).toNat world0.cpu).seed) ∧
      ((acquire hwGood (2 : Int).toNat world0.cpu).rand.length : Int) = 2 ∧
      ((acquire hwGood (2 : Int).toNat world0.cpu).seed.length : Int) = 2 ∧
      ((bytesOf (acquire hwGood (2 : Int).toNat world0.cpu).rand).length : Int) = 2 * 8 ∧
      ((bytesOf (acquire hwGood (2 : Int).toNat world0.cpu).seed).length : Int) = 2 * 8 ∧
      (bytesOf (acquire hwGood (2 : Int).toNat world0.cpu).rand).length =
        (bytesOf (acquire hwGood (2 : Int).toNat world0.cpu).seed).length ∧
      ((2 : Int) = 0 → w'.rdrand_raw = some [] ∧ w'.rdseed_raw = some [] ∧
        w'.cpu = world0.cpu) :=
  main_collects_total envOk hwGood 3 "collector" 2 world0 ⟨rfl, rfl, rfl, rfl⟩ (by decide)
    (by decide) (by decide) (by decide)

/-! ## Position of the values in the reference collection and in the files -/

theorem acquire_split (hw : Hardware) (n i : Nat) (c : Cpu) (hi : i ≤ n)
    (hok : (acquire hw n c).failed = none) :
    (acquire hw i c).failed = none ∧
    (acquire hw (n - i) (acquire hw i c).cpu).failed = none ∧
    (acquire hw n c).rand =
      (acquire hw i c).rand ++ (acquire hw (n - i) (acquire hw i c).cpu).rand ∧
    (acquire hw n c).seed =
      (acquire hw i c).seed ++ (acquire hw (n - i) (acquire hw i c).cpu).seed ∧
    (acquire hw n c).cpu = (acquire hw (n - i) (acquire hw i c).cpu).cpu := by
  have e : n = i + (n - i) := by omega
  have h := acquire_add hw i (n - i) c
  rw [← e] at h
  by_cases h1 : (acquire hw i c).failed = none
  · rw [if_pos h1] at h
    rw [h] at hok
    refine ⟨h1, hok, ?_, ?_, ?_⟩ <;> rw [h]
  · rw [if_neg h1] at h
    rw [h] at hok
    exact absurd hok h1

theorem acquire_one_ok (hw : Hardware) (n : Nat) (c : Cpu)
    (hok : (acquire hw (n + 1) c).failed = none) :
    (acquire hw (n + 1) c).rand =
      (rdrand_u64_retry hw c 0).value ::
        (acquire hw n (rdseed_u64_retry hw (rdrand_u64_retry hw c 0).cpu 0).cpu).rand ∧
    (acquire hw (n + 1) c).seed =
      (rdseed_u64_retry hw (rdrand_u64_retry hw c 0).cpu 0).value ::
        (acquire hw n (rdseed_u64_retry hw (rdrand_u64_retry hw c 0).cpu 0).cpu).seed := by
  rw [acquire_succ] at hok ⊢
  by_cases h1 : (rdrand_u64_retry hw c 0).ret = 0
  · rw [if_pos h1] at hok; cases hok
  · rw [if_neg h1] at hok ⊢
    by_cases h2 : (rdseed_u64_retry hw (rdrand_u64_retry hw c 0).cpu 0).ret = 0
    · rw [if_pos h2] at hok; cases hok
    · rw [if_neg h2]
      exact ⟨rfl, rfl⟩

theorem acquire_get (hw : Hardware) (n i : Nat) (c : Cpu) (hi : i < n)
    (hok : (acquire hw n c).failed = none) :
    (acquire hw n c).rand[i]? = some (rdrand_u64_retry hw (acquire hw i c).cpu 0).value ∧
    (acquire hw n c).seed[i]? =
      some (rdseed_u64_retry hw (rdrand_u64_retry hw (acquire hw i c).cpu 0).cpu 0).value := by
  obtain ⟨h1, h2, h3, h4, _⟩ := acquire_split hw n i c (le_of_lt hi) hok
  have hlen := acquire_ok_length hw i c h1
  obtain ⟨m, hm⟩ : ∃ m, n - i = m + 1 := ⟨n - i - 1, by omega⟩
  rw [hm] at h2 h3 h4
  obtain ⟨h5, h6⟩ := acquire_one_ok hw m _ h2
  rw [h3, h4, h5, h6]
  constructor
  · rw [List.getElem?_append_right (by omega), hlen.1]
    simp
  · rw [List.getElem?_append_right (by omega), hlen.2]
    simp

theorem bytesOf_cons (x : Nat) (xs : List Nat) :
    bytesOf (x :: xs) = le_bytes SIZEOF_ULL x ++ bytesOf xs := rfl

theorem bytesOf_at : ∀ (xs : List Nat) (i : Nat) (x : Nat), xs[i]? = some x →
    ((bytesOf xs).drop (8 * i)).take 8 = le_bytes SIZEOF_ULL x := by
  intro xs
  induction xs with
  | nil => intro i x h; simp at h
  | cons y ys ih =>
    intro i x h
    have hl : (le_bytes SIZEOF_ULL y).length = 8 := le_bytes_length _ _
    cases i with
    | zero =>
      have : y = x := by simpa using h
      subst this
      rw [bytesOf_cons, Nat.mul_zero, List.drop_zero, ← hl, List.take_left]
    | succ i =>
      have h1 : ys[i]? = some x := by simpa using h
      have e : 8 * (i + 1) = (le_bytes SIZEOF_ULL y).length + 8 * i := by omega
      rw [bytesOf_cons, e, List.drop_append, ih i x h1]

theorem acquire_hwGood : ∀ (n : Nat) (c : Cpu), (acquire hwGood n c).failed = none := by
  intro n
  induction n with
  | zero => intro c; rfl
  | succ n ih =>
    intro c
    have e : acquire hwGood (n + 1) c =
        ⟨c.nrand :: (acquire hwGood n
            ⟨c.nrand + 1, c.nseed + 1,
              c.log ++ [HwEvent.rdrand true] ++ [HwEvent.rdseed true]⟩).rand,
          (1000 + c.nseed) :: (acquire hwGood n
            ⟨c.nrand + 1, c.nseed + 1,
              c.log ++ [HwEvent.rdrand true] ++ [HwEvent.rdseed true]⟩).seed,
          (acquire hwGood n
            ⟨c.nrand + 1, c.nseed + 1,
              c.log ++ [HwEvent.rdrand true] ++ [HwEvent.rdseed true]⟩).failed,
          (acquire hwGood n
            ⟨c.nrand + 1, c.nseed + 1,
              c.log ++ [HwEvent.rdrand true] ++ [HwEvent.rdseed true]⟩).cpu⟩ := rfl
    rw [e]
    exact ih _

theorem chunkTrace_150000 :
    chunkTrace 150000 (nchunks 150000) 0 =
      [Event.chunk 0 65536, Event.fwrite Src.rdrand 65536, Event.fwrite Src.rdseed 65536,
        Event.chunk 65536 65536, Event.fwrite Src.rdrand 65536, Event.fwrite Src.rdseed 65536,
        Event.chunk 131072 18928, Event.fwrite Src.rdrand 18928,
        Event.fwrite Src.rdseed 18928] := by
  decide

theorem acquire_150000 (hw : Hardware) (c : Cpu)
    (hok : (acquire hw 150000 c).failed = none) :
    (acquire hw 150000 c).rand =
      (acquire hw 65536 c).rand ++ (acquire hw 65536 (acquire hw 65536 c).cpu).rand ++
        (acquire hw 18928 (acquire hw 65536 (acquire hw 65536 c).cpu).cpu).rand ∧
    (acquire hw 150000 c).seed =
      (acquire hw 65536 c).seed ++ (acquire hw 65536 (acquire hw 65536 c).cpu).seed ++
        (acquire hw 18928 (acquire hw 65536 (acquire hw 65536 c).cpu).cpu).seed := by
  obtain ⟨_, h2, h3, h4, _⟩ := acquire_split hw 150000 65536 c (by decide) hok
  have e1 : 150000 - 65536 = 84464 := by decide
  rw [e1] at h2 h3 h4
  obtain ⟨_, _, h6, h7, _⟩ := acquire_split hw 84464 65536 (acquire hw 65536 c).cpu
    (by decide) h2
  have e2 : 84464 - 65536 = 18928 := by decide
  rw [e2] at h6 h7
  rw [h3, h4, h6, h7, List.append_assoc, List.append_assoc]
  exact ⟨rfl, rfl⟩

/-- C2: chunking is transparent to the output. Under the hypotheses of a
successful run, each file written by the chunked loop of `main` is the byte
image of the list of values the unchunked reference collection `acquire`
obtains from that source; for every `i < total` the `i`-th value of that list
is the value of the `i`-th acquisition (the one made after `i` complete
pairs) and it occupies bytes `8 i .. 8 i + 7` of the file; the loop flushes
`nchunks total` chunks of `min(CHUNK_SIZE, remaining)` samples; and for
`total = 150000` these are chunks of 65536, 65536 and 18928 samples whose
concatenation, fed from the same hardware, is the content of the files. -/
theorem chunking_transparent (env : Env) (hw : Hardware) (fuel : Nat) (argv0 : String)
    (total : Int) (w : World) (henv : env.allOk) (h0 : 0 ≤ total) (hmax : total ≤ LLONG_MAX)
    (hfuel : total.toNat < fuel)
    (hok : (acquire hw total.toNat w.cpu).failed = none) :
    ∃ w', main env hw fuel 2 argv0 total w = Outcome.exit 0 w' ∧
      w'.rdrand_raw = some (bytesOf (acquire hw total.toNat w.cpu).rand) ∧
      w'.rdseed_raw = some (bytesOf (acquire hw total.toNat w.cpu).seed) ∧
      (∀ i : Nat, (i : Int) < total →
        (acquire hw total.toNat w.cpu).rand[i]? =
          some (rdrand_u64_retry hw (acquire hw i w.cpu).cpu 0).value ∧
        (acquire hw total.toNat w.cpu).seed[i]? =
          some (rdseed_u64_retry hw
            (rdrand_u64_retry hw (acquire hw i w.cpu).cpu 0).cpu 0).value ∧
        ((bytesOf (acquire hw total.toNat w.cpu).rand).drop (8 * i)).take 8 =
          le_bytes SIZEOF_ULL (rdrand_u64_retry hw (acquire hw i w.cpu).cpu 0).value ∧
        ((bytesOf (acquire hw total.toNat w.cpu).seed).drop (8 * i)).take 8 =
          le_bytes SIZEOF_ULL (rdseed_u64_retry hw
            (rdrand_u64_retry hw (acquire hw i w.cpu).cpu 0).cpu 0).value) ∧
      w'.trace =
        w.trace ++ setupTrace total ++ chunkTrace total (nchunks total) 0 ++ cleanupTrace ∧
      (total = 150000 →
        chunkTrace total (nchunks total) 0 =
          [Event.chunk 0 65536, Event.fwrite Src.rdrand 65536, Event.fwrite Src.rdseed 65536,
            Event.chunk 65536 65536, Event.fwrite Src.rdrand 65536,
            Event.fwrite Src.rdseed 65536,
            Event.chunk 131072 18928, Event.fwrite Src.rdrand 18928,
            Event.fwrite Src.rdseed 18928] ∧
        (acquire hw total.toNat w.cpu).rand =
          (acquire hw 65536 w.cpu).rand ++
            (acquire hw 65536 (acquire hw 65536 w.cpu).cpu).rand ++
            (acquire hw 18928 (acquire hw 65536 (acquire hw 65536 w.cpu).cpu).cpu).rand ∧
        (acquire hw total.toNat w.cpu).seed =
          (acquire hw 65536 w.cpu).seed ++
            (acquire hw 65536 (acquire hw 65536 w.cpu).cpu).seed ++
            (acquire hw 18928 (acquire hw 65536 (acquire hw 65536 w.cpu).cpu).cpu).seed) := by
  refine ⟨_, main_done env hw fuel argv0 total w henv h0 hmax hfuel hok, rfl, rfl, ?_, rfl, ?_⟩
  · intro i hi
    have hg := acquire_get hw total.toNat i w.cpu (by omega) hok
    exact ⟨hg.1, hg.2, bytesOf_at _ _ _ hg.1, bytesOf_at _ _ _ hg.2⟩
  · intro ht
    subst ht
    have e : (150000 : Int).toNat = 150000 := by decide
    rw [e] at hok ⊢
    exact ⟨chunkTrace_150000, acquire_150000 hw w.cpu hok⟩

/-- C2 at a concrete input: 150000 samples from hardware that always
succeeds. -/
theorem chunking_transparent_witness :
    ∃ w', main envOk hwGood 150001 2 "collector" 150000 world0 = Outcome.exit 0 w' ∧
      w'.rdrand_raw = some (bytesOf (acquire hwGood (150000 : Int).toNat world0.cpu).rand) ∧
      w'.rdseed_raw = some (bytesOf (acquire hwGood (150000 : Int).toNat world0.cpu).seed) ∧
      (∀ i : Nat, (i : Int) < 150000 →
        (acquire hwGood (150000 : Int).toNat world0.cpu).rand[i]? =
          some (rdrand_u64_retry hwGood (acquire hwGood i world0.cpu).cpu 0).value ∧
        (acquire hwGood (150000 : Int).toNat world0.cpu).seed[i]? =
          some (rdseed_u64_retry hwGood
            (rdrand_u64_retry hwGood (acquire hwGood i world0.cpu).cpu 0).cpu 0).value ∧
        ((bytesOf (acquire hwGood (150000 : Int).toNat world0.cpu).rand).drop (8 * i)).take 8 =
          le_bytes SIZEOF_ULL
            (rdrand_u64_retry hwGood (acquire hwGood i world0.cpu).cpu 0).value ∧
        ((bytesOf (acquire hwGood (150000 : Int).toNat world0.cpu).seed).drop (8 * i)).take 8 =
          le_bytes SIZEOF_ULL (rdseed_u64_retry hwGood
            (rdrand_u64_retry hwGood (acquire hwGood i world0.cpu).cpu 0).cpu 0).value) ∧
      w'.trace =
        world0.trace ++ setupTrace 150000 ++ chunkTrace 150000 (nchunks 150000) 0 ++
          cleanupTrace ∧
      ((150000 : Int) = 150000 →
        chunkTrace 150000 (nchunks 150000) 0 =
          [Event.chunk 0 65536, Event.fwrite Src.rdrand 65536, Event.fwrite Src.rdseed 65536,
            Event.chunk 65536 65536, Event.fwrite Src.rdrand 65536,
            Event.fwrite Src.rdseed 65536,
            Event.chunk 131072 18928, Event.fwrite Src.rdrand 18928,
            Event.fwrite Src.rdseed 18928] ∧
        (acquire hwGood (150000 : Int).toNat world0.cpu).rand =
          (acquire hwGood 65536 world0.cpu).rand ++
            (acquire hwGood 65536 (acquire hwGood 65536 world0.cpu).cpu).rand ++
            (acquire hwGood 18928
              (acquire hwGood 65536 (acquire hwGood 65536 world0.cpu).cpu).cpu).rand ∧
        (acquire hwGood (150000 : Int).toNat world0.cpu).seed =
          (acquire hwGood 65536 world0.cpu).seed ++
            (acquire hwGood 65536 (acquire hwGood 65536 world0.cpu).cpu).seed ++
            (acquire hwGood 18928
              (acquire hwGood 65536 (acquire hwGood 65536 world0.cpu).cpu).cpu).seed) :=
  chunking_transparent envOk hwGood 150001 "collector" 150000 world0 ⟨rfl, rfl, rfl, rfl⟩
    (by decide) (by decide) (by decide) (acquire_hwGood _ _)

/-! ## Exhaustion -/

theorem rdrand_loop_nseed (hw : Hardware) : ∀ (n : Nat) (c : Cpu) (v : Nat),
    (rdrand_loop hw n c v).cpu.nseed = c.nseed := by
  intro n
  induction n with
  | zero => intro c v; rfl
  | succ n ih =>
    intro c v
    rw [rdrand_loop]
    by_cases h : (hw.rdrand64_step c.nrand).cf = true
    · simp [h]
    · simp only [h, Bool.false_eq_true, if_false]
      rw [ih]

theorem acquire_one (hw : Hardware) (c : Cpu) :
    acquire hw 1 c =
      if (rdrand_u64_retry hw c 0).ret = 0 then
        ⟨[], [], some Src.rdrand, (rdrand_u64_retry hw c 0).cpu⟩
      else if (rdseed_u64_retry hw (rdrand_u64_retry hw c 0).cpu 0).ret = 0 then
        ⟨[(rdrand_u64_retry hw c 0).value], [], some Src.rdseed,
          (rdseed_u64_retry hw (rdrand_u64_retry hw c 0).cpu 0).cpu⟩
      else
        ⟨[(rdrand_u64_retry hw c 0).value],
          [(rdseed_u64_retry hw (rdrand_u64_retry hw c 0).cpu 0).value], none,
          (rdseed_u64_retry hw (rdrand_u64_retry hw c 0).cpu 0).cpu⟩ := rfl

theorem acquire_failed_at (hw : Hardware) (j n : Nat) (c : Cpu) (src : Src) (hn : j < n)
    (hpre : (acquire hw j c).failed = none)
    (hfail : (acquire hw (j + 1) c).failed = some src) :
    acquire hw n c = acquire hw (j + 1) c ∧
    (acquire hw (j + 1) c).seed = (acquire hw j c).seed ∧
    (∃ tail, (acquire hw (j + 1) c).rand = (acquire hw j c).rand ++ tail) ∧
    (src = Src.rdrand →
      (rdrand_u64_retry hw (acquire hw j c).cpu 0).ret = 0 ∧
      (acquire hw (j + 1) c).cpu = (rdrand_u64_retry hw (acquire hw j c).cpu 0).cpu) ∧
    (src = Src.rdseed →
      (rdrand_u64_retry hw (acquire hw j c).cpu 0).ret ≠ 0 ∧
      (rdseed_u64_retry hw (rdrand_u64_retry hw (acquire hw j c).cpu 0).cpu 0).ret = 0 ∧
      (acquire hw (j + 1) c).cpu =
        (rdseed_u64_retry hw (rdrand_u64_retry hw (acquire hw j c).cpu 0).cpu 0).cpu) := by
  have hne : ¬ (acquire hw (j + 1) c).failed = none := by rw [hfail]; simp
  have e1 : acquire hw n c = acquire hw (j + 1) c := by
    have e : n = (j + 1) + (n - (j + 1)) := by omega
    rw [e, acquire_add, if_neg hne]
  have h1 := acquire_add hw j 1 c
  rw [if_pos hpre, acquire_one] at h1
  rw [h1] at hfail
  refine ⟨e1, ?_⟩
  rw [h1]
  by_cases hr : (rdrand_u64_retry hw (acquire hw j c).cpu 0).ret = 0
  · simp only [hr, if_true] at hfail ⊢
    have hs : Src.rdrand = src := by simpa using hfail
    subst hs
    simp
  · simp only [hr, if_false] at hfail ⊢
    by_cases hs : (rdseed_u64_retry hw
        (rdrand_u64_retry hw (acquire hw j c).cpu 0).cpu 0).ret = 0
    · simp only [hs, if_true] at hfail ⊢
      have hs : Src.rdseed = src := by simpa using hfail
      subst hs
      simp [hr]
    · simp only [hs, if_false] at hfail
      simp at hfail

theorem acquire_hwRandDead (c : Cpu) :
    (acquire hwRandDead 1 c).failed = some Src.rdrand := by
  have h : (rdrand_u64_retry hwRandDead c 0).ret = 0 :=
    (rdrand_loop_fail hwRandDead 2000 c 0 (fun _ _ => rfl)).1
  rw [acquire_one, if_pos h]

/-- C6: if the first `j` sample pairs are acquired and the acquisition of
sample index `j < total` exhausts source `src`, `main` returns 1 at once: the
machine state is the one the failing retry function left (so after an RDRAND
failure the seeded instruction was not invoked for index `j`), the last two
trace entries are the marker of the chunk in flight and the failure line
naming the source, "RDRAND failure." when the fast source was exhausted and
"RDSEED failure." when the seeded source was, with no `fwrite` between them,
and each file holds exactly the first `65536 * (j / 65536)` values acquired
from its source, those of the fully flushed chunks. The source is the one
whose retry function returned 0 for index `j`. -/
theorem main_aborts_on_exhaustion (env : Env) (hw : Hardware) (fuel : Nat) (argv0 : String)
    (total : Int) (w : World) (j : Nat) (src : Src) (henv : env.allOk)
    (hj : (j : Int) < total) (hmax : total ≤ LLONG_MAX) (hfuel : total.toNat < fuel)
    (hpre : (acquire hw j w.cpu).failed = none)
    (hfail : (acquire hw (j + 1) w.cpu).failed = some src) :
    main env hw fuel 2 argv0 total w =
      Outcome.exit 1
        ⟨(acquire hw (j + 1) w.cpu).cpu,
          some (bytesOf ((acquire hw j w.cpu).rand.take (65536 * (j / 65536)))),
          some (bytesOf ((acquire hw j w.cpu).seed.take (65536 * (j / 65536)))),
          w.trace ++ setupTrace total ++ chunkTrace total (j / 65536) 0 ++
            [Event.chunk (65536 * ((j / 65536 : Nat) : Int))
                (min CHUNK_SIZE (total - 65536 * ((j / 65536 : Nat) : Int))),
              Event.printf
                (if src = Src.rdrand then Msg.rdrandFailure else Msg.rdseedFailure)]⟩ ∧
    ((acquire hw j w.cpu).rand.take (65536 * (j / 65536))).length = 65536 * (j / 65536) ∧
    ((acquire hw j w.cpu).seed.take (65536 * (j / 65536))).length = 65536 * (j / 65536) ∧
    (src = Src.rdrand →
      (rdrand_u64_retry hw (acquire hw j w.cpu).cpu 0).ret = 0 ∧
      (acquire hw (j + 1) w.cpu).cpu = (rdrand_u64_retry hw (acquire hw j w.cpu).cpu 0).cpu ∧
      (acquire hw (j + 1) w.cpu).cpu.nseed = (acquire hw j w.cpu).cpu.nseed) ∧
    (src = Src.rdseed →
      (rdrand_u64_retry hw (acquire hw j w.cpu).cpu 0).ret ≠ 0 ∧
      (rdseed_u64_retry hw (rdrand_u64_retry hw (acquire hw j w.cpu).cpu 0).cpu 0).ret = 0 ∧
      (acquire hw (j + 1) w.cpu).cpu =
        (rdseed_u64_retry hw (rdrand_u64_retry hw (acquire hw j w.cpu).cpu 0).cpu 0).cpu) := by
  obtain ⟨e1, e2, ⟨tail, e3⟩, e4, e5⟩ :=
    acquire_failed_at hw j total.toNat w.cpu src (by omega) hpre hfail
  have hlen := acquire_ok_length hw j w.cpu hpre
  have hq : 65536 * (j / 65536) ≤ j := Nat.mul_div_le j 65536
  have hmsg : failureMsg src =
      (if src = Src.rdrand then Msg.rdrandFailure else Msg.rdseedFailure) := by
    cases src <;> rfl
  refine ⟨?_, ?_, ?_, ?_, e5⟩
  · rw [← hmsg,
      main_abort env hw fuel argv0 total w src henv (by omega) hmax hfuel
        (by rw [e1]; exact hfail)]
    rw [e1]
    simp only [abortWorld, startWorld, e2, e3, hlen.2, zero_add]
    rw [List.take_append_of_le_length (by rw [hlen.1]; exact hq)]
    simp [fappend]
  · rw [List.length_take, hlen.1]; omega
  · rw [List.length_take, hlen.2]; omega
  · intro hs
    obtain ⟨h1, h2⟩ := e4 hs
    refine ⟨h1, h2, ?_⟩
    rw [h2]
    exact rdrand_loop_nseed hw 2000 _ 0

theorem rdrand_u64_retry_nseed (hw : Hardware) (c : Cpu) (v : Nat) :
    (rdrand_u64_retry hw c v).cpu.nseed = c.nseed :=
  rdrand_loop_nseed hw 2000 c v

theorem rdrand_u64_retry_hwSeedDies (c : Cpu) :
    ¬ (rdrand_u64_retry hwSeedDies c 0).ret = 0 := by
  have e : (rdrand_u64_retry hwSeedDies c 0).ret = 1 := rfl
  rw [e]; decide

theorem rdseed_u64_retry_hwSeedDies (c : Cpu) (h : c.nseed < 70000) :
    rdseed_u64_retry hwSeedDies c 0 =
      ⟨1, 1000 + c.nseed, ⟨c.nrand, c.nseed + 1, c.log ++ [HwEvent.rdseed true]⟩⟩ := by
  have hs : (hwSeedDies.rdseed64_step (c.nseed + 0)).cf = true := by
    simp only [hwSeedDies, Nat.add_zero]
    exact decide_eq_true h
  have e := rdseed_loop_succ hwSeedDies 200000 0 c 0 0 (by decide)
    (fun j hj => absurd hj (Nat.not_lt_zero j)) hs
  rw [rdseed_u64_retry, e]
  simp [seedFailLog_zero, hwSeedDies]

theorem acquire_hwSeedDies_ok : ∀ (n : Nat) (c : Cpu), c.nseed + n ≤ 70000 →
    (acquire hwSeedDies n c).failed = none ∧
    (acquire hwSeedDies n c).cpu.nseed = c.nseed + n := by
  intro n
  induction n with
  | zero => intro c _; exact ⟨rfl, rfl⟩
  | succ n ih =>
    intro c h
    have h1 := rdrand_u64_retry_hwSeedDies c
    have e3 := rdrand_u64_retry_nseed hwSeedDies c 0
    have e2 := rdseed_u64_retry_hwSeedDies (rdrand_u64_retry hwSeedDies c 0).cpu (by omega)
    have h2 : ¬ (rdseed_u64_retry hwSeedDies (rdrand_u64_retry hwSeedDies c 0).cpu 0).ret = 0 := by
      rw [e2]
      exact (by decide : ¬ ((1 : Int) = 0))
    rw [acquire_succ, if_neg h1, if_neg h2, e2]
    have ih1 := ih ⟨(rdrand_u64_retry hwSeedDies c 0).cpu.nrand,
      (rdrand_u64_retry hwSeedDies c 0).cpu.nseed + 1,
      (rdrand_u64_retry hwSeedDies c 0).cpu.log ++ [HwEvent.rdseed true]⟩
      (by simp only [e3]; omega)
    refine ⟨ih1.1, ?_⟩
    simp only [e3] at ih1 ⊢
    rw [ih1.2]
    omega

theorem acquire_hwSeedDies_fail :
    (acquire hwSeedDies (70000 + 1) cpu0).failed = some Src.rdseed := by
  obtain ⟨hok, hn⟩ := acquire_hwSeedDies_ok 70000 cpu0 (Nat.le_of_eq (Nat.zero_add 70000))
  have hn1 : (acquire hwSeedDies 70000 cpu0).cpu.nseed = 70000 :=
    hn.trans (Nat.zero_add 70000)
  have h1 := rdrand_u64_retry_hwSeedDies (acquire hwSeedDies 70000 cpu0).cpu
  have hn2 : (rdrand_u64_retry hwSeedDies (acquire hwSeedDies 70000 cpu0).cpu 0).cpu.nseed =
      70000 :=
    (rdrand_u64_retry_nseed hwSeedDies _ 0).trans hn1
  have h2 : (rdseed_u64_retry hwSeedDies
      (rdrand_u64_retry hwSeedDies (acquire hwSeedDies 70000 cpu0).cpu 0).cpu 0).ret = 0 :=
    (rdseed_loop_fail hwSeedDies 200000 0 _ 0 (by
      intro j _
      rw [hn2]
      simp only [hwSeedDies]
      exact decide_eq_false (by omega))).1
  rw [acquire_add, if_pos hok, acquire_one, if_neg h1, if_pos h2]

/-- C6 at a concrete input: 100000 samples requested, the seeded source dies
after 70000 values, so sample index 70000 fails in the second chunk after the
first chunk was flushed. -/
theorem main_aborts_after_flush_witness :
    main envOk hwSeedDies 100001 2 "collector" 100000 world0 =
      Outcome.exit 1
        ⟨(acquire hwSeedDies (70000 + 1) world0.cpu).cpu,
          some (bytesOf
            ((acquire hwSeedDies 70000 world0.cpu).rand.take (65536 * (70000 / 65536)))),
          some (bytesOf
            ((acquire hwSeedDies 70000 world0.cpu).seed.take (65536 * (70000 / 65536)))),
          world0.trace ++ setupTrace 100000 ++ chunkTrace 100000 (70000 / 65536) 0 ++
            [Event.chunk (65536 * ((70000 / 65536 : Nat) : Int))
                (min CHUNK_SIZE (100000 - 65536 * ((70000 / 65536 : Nat) : Int))),
              Event.printf
                (if Src.rdseed = Src.rdrand then Msg.rdrandFailure else Msg.rdseedFailure)]⟩ ∧
    ((acquire hwSeedDies 70000 world0.cpu).rand.take (65536 * (70000 / 65536))).length =
      65536 * (70000 / 65536) ∧
    ((acquire hwSeedDies 70000 world0.cpu).seed.take (65536 * (70000 / 65536))).length =
      65536 * (70000 / 65536) ∧
    (Src.rdseed = Src.rdrand →
      (rdrand_u64_retry hwSeedDies (acquire hwSeedDies 70000 world0.cpu).cpu 0).ret = 0 ∧
      (acquire hwSeedDies (70000 + 1) world0.cpu).cpu =
        (rdrand_u64_retry hwSeedDies (acquire hwSeedDies 70000 world0.cpu).cpu 0).cpu ∧
      (acquire hwSeedDies (70000 + 1) world0.cpu).cpu.nseed =
        (acquire hwSeedDies 70000 world0.cpu).cpu.nseed) ∧
    (Src.rdseed = Src.rdseed →
      (rdrand_u64_retry hwSeedDies (acquire hwSeedDies 70000 world0.cpu).cpu 0).ret ≠ 0 ∧
      (rdseed_u64_retry hwSeedDies
        (rdrand_u64_retry hwSeedDies (acquire hwSeedDies 70000 world0.cpu).cpu 0).cpu 0).ret = 0 ∧
      (acquire hwSeedDies (70000 + 1) world0.cpu).cpu =
        (rdseed_u64_retry hwSeedDies
          (rdrand_u64_retry hwSeedDies (acquire hwSeedDies 70000 world0.cpu).cpu 0).cpu 0).cpu) :=
  main_aborts_on_exhaustion envOk hwSeedDies 100001 "collector" 100000 world0 70000 Src.rdseed
    ⟨rfl, rfl, rfl, rfl⟩ (by decide) (by decide) (by decide)
    (acquire_hwSeedDies_ok 70000 cpu0 (Nat.le_of_eq (Nat.zero_add 70000))).1
    acquire_hwSeedDies_fail

/-- The trace of the loop in the concrete run above: one chunk flushed, the
second one abandoned. -/
theorem trace_after_flush :
    chunkTrace 100000 (70000 / 65536) 0 ++
        [Event.chunk (65536 * ((70000 / 65536 : Nat) : Int))
            (min CHUNK_SIZE (100000 - 65536 * ((70000 / 65536 : Nat) : Int))),
          Event.printf
            (if Src.rdseed = Src.rdrand then Msg.rdrandFailure else Msg.rdseedFailure)] =
      [Event.chunk 0 65536, Event.fwrite Src.rdrand 65536, Event.fwrite Src.rdseed 65536,
        Event.chunk 65536 34464, Event.printf Msg.rdseedFailure] := by
  decide

theorem acquire_hwSeedDead (c : Cpu) :
    (acquire hwSeedDead 1 c).failed = some Src.rdseed := by
  have h1 : ¬ (rdrand_u64_retry hwSeedDead c 0).ret = 0 := by
    have e : (rdrand_u64_retry hwSeedDead c 0).ret = 1 := rfl
    rw [e]; decide
  have h2 : (rdseed_u64_retry hwSeedDead (rdrand_u64_retry hwSeedDead c 0).cpu 0).ret = 0 :=
    (rdseed_loop_fail hwSeedDead 200000 0 _ 0 (fun _ _ => rfl)).1
  rw [acquire_one, if_neg h1, if_pos h2]

theorem main_abort_first (env : Env) (hw : Hardware) (fuel : Nat) (argv0 : String)
    (w : World) (src : Src) (henv : env.allOk) (hfuel : 1 < fuel)
    (hfail : (acquire hw 1 w.cpu).failed = some src) :
    main env hw fuel 2 argv0 1 w =
      Outcome.exit 1
        ⟨(acquire hw 1 w.cpu).cpu, some [], some [],
          w.trace ++ setupTrace 1 ++ [Event.chunk 0 1, Event.printf (failureMsg src)]⟩ := by
  have hlen := acquire_failed_length hw 1 w.cpu src hfail
  have hz : (acquire hw 1 w.cpu).seed.length = 0 := by omega
  rw [main_abort env hw fuel argv0 1 w src henv (by decide) (by decide) (by simpa using hfuel)
    (by simpa using hfail)]
  have e : (1 : Int).toNat = 1 := rfl
  rw [e]
  have hm : min CHUNK_SIZE (1 - (0 + 65536 * ((0 : Nat) : Int))) = 1 := by decide
  simp only [abortWorld, startWorld, hz, Nat.zero_div, Nat.mul_zero, List.take_zero,
    bytesOf_nil, fappend_nil, chunkTrace, List.append_nil, hm]
  simp

/-- C7, the code against the claim: on each of the four error paths `main`
returns 1 and its trace ends with the diagnostic line; no `fclose` and no
`free` appears in it although a file was opened (and, on the last three
paths, a buffer allocated). Only the path that returns 0 releases the buffers
and closes the files. -/
theorem main_error_paths_leak :
    main envSeedFileFails hwGood 2 2 "collector" 1 world0 =
      Outcome.exit 1
        ⟨cpu0, some [], none,
          [Event.fopen Src.rdrand true, Event.fopen Src.rdseed false,
            Event.printf Msg.cannotOpen]⟩ ∧
    main envSecondMallocFails hwGood 2 2 "collector" 1 world0 =
      Outcome.exit 1
        ⟨cpu0, some [], some [],
          [Event.fopen Src.rdrand true, Event.fopen Src.rdseed true,
            Event.malloc Src.rdrand true, Event.malloc Src.rdseed false,
            Event.printf Msg.allocFailed]⟩ ∧
    main envOk hwRandDead 2 2 "collector" 1 world0 =
      Outcome.exit 1
        ⟨(acquire hwRandDead 1 cpu0).cpu, some [], some [],
          [Event.fopen Src.rdrand true, Event.fopen Src.rdseed true,
            Event.malloc Src.rdrand true, Event.malloc Src.rdseed true,
            Event.printf (Msg.collecting 1), Event.chunk 0 1,
            Event.printf Msg.rdrandFailure]⟩ ∧
    main envOk hwSeedDead 2 2 "collector" 1 world0 =
      Outcome.exit 1
        ⟨(acquire hwSeedDead 1 cpu0).cpu, some [], some [],
          [Event.fopen Src.rdrand true, Event.fopen Src.rdseed true,
            Event.malloc Src.rdrand true, Event.malloc Src.rdseed true,
            Event.printf (Msg.collecting 1), Event.chunk 0 1,
            Event.printf Msg.rdseedFailure]⟩ ∧
    main envOk hwGood 2 2 "collector" 1 world0 =
      Outcome.exit 0
        ⟨⟨1, 1, [HwEvent.rdrand true, HwEvent.rdseed true]⟩,
          some [0, 0, 0, 0, 0, 0, 0, 0], some [232, 3, 0, 0, 0, 0, 0, 0],
          [Event.fopen Src.rdrand true, Event.fopen Src.rdseed true,
            Event.malloc Src.rdrand true, Event.malloc Src.rdseed true,
            Event.printf (Msg.collecting 1), Event.chunk 0 1,
            Event.fwrite Src.rdrand 1, Event.fwrite Src.rdseed 1,
            Event.printf Msg.done, Event.free Src.rdrand, Event.free Src.rdseed,
            Event.fclose Src.rdrand, Event.fclose Src.rdseed]⟩ := by
  refine ⟨by decide, by decide, ?_, ?_, by decide⟩
  · exact main_abort_first envOk hwRandDead 2 "collector" world0 Src.rdrand
      ⟨rfl, rfl, rfl, rfl⟩ (by decide) (acquire_hwRandDead _)
  · exact main_abort_first envOk hwSeedDead 2 "collector" world0 Src.rdseed
      ⟨rfl, rfl, rfl, rfl⟩ (by decide) (acquire_hwSeedDead _)

/-- C8: for every `argc` other than 2, `main` prints the usage line and
returns 1; this is the only call it makes: the two files are as they were
(not created, not truncated), no `fopen`, no `malloc`, and the machine state
is untouched (no instruction invoked). -/
theorem main_usage (env : Env) (hw : Hardware) (fuel : Nat) (argc : Int) (argv0 : String)
    (total : Int) (w : World) (hargc : argc ≠ 2) :
    main env hw fuel argc argv0 total w =
      Outcome.exit 1
        ⟨w.cpu, w.rdrand_raw, w.rdseed_raw, w.trace ++ [Event.printf (Msg.usage argv0)]⟩ := by
  simp [main, hargc]

/-- C8 at a concrete input: no program argument, with both files already
holding data. -/
theorem main_usage_witness :
    main envOk hwGood 5 1 "collector" 0 ⟨cpu0, some [1, 2, 3], some [4], []⟩ =
      Outcome.exit 1
        ⟨cpu0, some [1, 2, 3], some [4], [] ++ [Event.printf (Msg.usage "collector")]⟩ :=
  main_usage envOk hwGood 5 1 "collector" 0 ⟨cpu0, some [1, 2, 3], some [4], []⟩ (by decide)

/-! ## The trace of the loop in closed form and the progress lines -/

theorem chunkTrace_add (total : Int) (b : Nat) :
    ∀ (m : Nat) (c : Int), CHUNK_SIZE * m ≤ total - c →
      chunkTrace total (m + b) c =
        chunkTrace total m c ++ chunkTrace total b (c + CHUNK_SIZE * m) := by
  intro m
  induction m with
  | zero => intro c _; simp [chunkTrace]
  | succ m ih =>
    intro c h
    have hfull : min CHUNK_SIZE (total - c) = CHUNK_SIZE := by
      simp only [CHUNK_SIZE] at *; push_cast at h; omega
    have e : m + 1 + b = (m + b) + 1 := by omega
    rw [e, chunkTrace_succ total (m + b) c, chunkTrace_succ total m c, hfull,
      ih (c + CHUNK_SIZE) (by simp only [CHUNK_SIZE] at *; push_cast at h; omega),
      List.append_assoc]
    congr 3
    push_cast; ring

theorem chunkTrace_closed (total : Int) :
    ∀ m : Nat, CHUNK_SIZE * (m : Int) < total + CHUNK_SIZE →
      chunkTrace total m 0 = (List.range m).flatMap (chunkEvents total) := by
  intro m
  induction m with
  | zero => intro _; rfl
  | succ m ih =>
    intro h
    have h1 : CHUNK_SIZE * (m : Int) ≤ total - 0 := by
      simp only [CHUNK_SIZE] at *; push_cast at h; omega
    rw [chunkTrace_add total 1 m 0 h1,
      ih (by simp only [CHUNK_SIZE] at *; push_cast at h; omega),
      List.range_succ, List.flatMap_append, chunkTrace_one, zero_add]
    simp [chunkEvents]

theorem stdout_append (a b : List Event) : stdout (a ++ b) = stdout a ++ stdout b := by
  simp [stdout, List.filterMap_append]

theorem stdout_chunkEvents_full (total : Int) (q : Nat)
    (h : CHUNK_SIZE * (q : Int) + CHUNK_SIZE ≤ total) :
    stdout (chunkEvents total q) =
      if (q + 1) % 20 = 0 then [Msg.progress (CHUNK_SIZE * 20 * (((q + 1) / 20 : Nat) : Int)) total]
      else [] := by
  have hfull : min CHUNK_SIZE (total - CHUNK_SIZE * (q : Int)) = CHUNK_SIZE := by
    simp only [CHUNK_SIZE] at *; omega
  rw [chunkEvents, hfull]
  by_cases hq : (q + 1) % 20 = 0
  · have h1 : (CHUNK_SIZE * (q : Int) + CHUNK_SIZE) % (CHUNK_SIZE * 20) = 0 := by
      simp only [CHUNK_SIZE]; omega
    have h2 : CHUNK_SIZE * (q : Int) + CHUNK_SIZE =
        CHUNK_SIZE * 20 * (((q + 1) / 20 : Nat) : Int) := by
      simp only [CHUNK_SIZE]; omega
    rw [if_pos h1, if_pos hq, h2]
    rfl
  · have h1 : ¬ (CHUNK_SIZE * (q : Int) + CHUNK_SIZE) % (CHUNK_SIZE * 20) = 0 := by
      simp only [CHUNK_SIZE]; omega
    rw [if_neg h1, if_neg hq]
    rfl

theorem stdout_chunkEvents_last (total : Int) (q : Nat)
    (h1 : CHUNK_SIZE * (q : Int) < total) (h2 : total < CHUNK_SIZE * (q : Int) + CHUNK_SIZE) :
    stdout (chunkEvents total q) = [] := by
  have hmin : min CHUNK_SIZE (total - CHUNK_SIZE * (q : Int)) = total - CHUNK_SIZE * (q : Int) := by
    simp only [CHUNK_SIZE] at *; omega
  have hne : ¬ (CHUNK_SIZE * (q : Int) + (total - CHUNK_SIZE * (q : Int))) % (CHUNK_SIZE * 20) = 0 := by
    simp only [CHUNK_SIZE] at *; omega
  rw [chunkEvents, hmin, if_neg hne]
  rfl

theorem stdout_full_chunks (total : Int) :
    ∀ m : Nat, CHUNK_SIZE * (m : Int) ≤ total →
      stdout ((List.range m).flatMap (chunkEvents total)) =
        (List.range (m / 20)).map
          (fun (k : Nat) => Msg.progress (CHUNK_SIZE * 20 * ((k : Int) + 1)) total) := by
  intro m
  induction m with
  | zero => intro _; rfl
  | succ m ih =>
    intro h
    have h1 : CHUNK_SIZE * (m : Int) + CHUNK_SIZE ≤ total := by
      simp only [CHUNK_SIZE] at *; push_cast at h; omega
    rw [List.range_succ, List.flatMap_append, stdout_append,
      ih (by simp only [CHUNK_SIZE] at *; omega)]
    simp only [List.flatMap_cons, List.flatMap_nil, List.append_nil]
    rw [stdout_chunkEvents_full total m h1]
    by_cases hq : (m + 1) % 20 = 0
    · have e : (m + 1) / 20 = m / 20 + 1 := by omega
      rw [if_pos hq, e, List.range_succ, List.map_append]
      simp
    · have e : (m + 1) / 20 = m / 20 := by omega
      rw [if_neg hq, e, List.append_nil]

theorem stdout_all_chunks (total : Int) (h0 : 0 ≤ total) :
    stdout ((List.range (nchunks total)).flatMap (chunkEvents total)) =
      (List.range (total / 1310720).toNat).map
        (fun (k : Nat) => Msg.progress (1310720 * ((k : Int) + 1)) total) := by
  have hdiv : (total / 65536).toNat / 20 = (total / 1310720).toNat := by omega
  have hfun : (fun k : Nat => Msg.progress (CHUNK_SIZE * 20 * ((k : Int) + 1)) total) =
      (fun k : Nat => Msg.progress (1310720 * ((k : Int) + 1)) total) := by
    funext k; rfl
  by_cases hr : total % 65536 = 0
  · have hn : nchunks total = (total / 65536).toNat := by
      simp only [nchunks, CHUNK_SIZE]; omega
    rw [hn, stdout_full_chunks total _ (by simp only [CHUNK_SIZE]; omega), hdiv, hfun]
  · have hn : nchunks total = (total / 65536).toNat + 1 := by
      simp only [nchunks, CHUNK_SIZE]; omega
    rw [hn, List.range_succ, List.flatMap_append, stdout_append,
      stdout_full_chunks total _ (by simp only [CHUNK_SIZE]; omega), hdiv, hfun]
    simp only [List.flatMap_cons, List.flatMap_nil, List.append_nil]
    rw [stdout_chunkEvents_last total _ (by simp only [CHUNK_SIZE]; omega)
      (by simp only [CHUNK_SIZE]; omega), List.append_nil]

/-- C9: in a successful run, what `main` prints is the start banner, then
exactly one line `Progress: c / total` for each `c = 1310720 * k` with
`1 <= k <= total / 1310720`, in increasing order of `k`, then the completion
banner, and nothing else; each such `c` is positive, a multiple of 1310720 and
at most `total`. In the trace, chunk `q` (from 0) contributes its two flushes
of `min(65536, total - 65536 q)` samples, and the progress line for the
cumulative count `65536 q + min(65536, total - 65536 q)` comes immediately
after them, exactly when that count is a multiple of 1310720. -/
theorem main_progress_lines (env : Env) (hw : Hardware) (fuel : Nat) (argv0 : String)
    (total : Int) (w : World) (henv : env.allOk) (h0 : 0 ≤ total) (hmax : total ≤ LLONG_MAX)
    (hfuel : total.toNat < fuel)
    (hok : (acquire hw total.toNat w.cpu).failed = none) :
    ∃ w', main env hw fuel 2 argv0 total w = Outcome.exit 0 w' ∧
      stdout w'.trace =
        stdout w.trace ++ [Msg.collecting total] ++
          (List.range (total / 1310720).toNat).map
            (fun (k : Nat) => Msg.progress (1310720 * ((k : Int) + 1)) total) ++
          [Msg.done] ∧
      w'.trace =
        w.trace ++
          [Event.fopen Src.rdrand true, Event.fopen Src.rdseed true,
            Event.malloc Src.rdrand true, Event.malloc Src.rdseed true,
            Event.printf (Msg.collecting total)] ++
          (List.range (nchunks total)).flatMap
            (fun (q : Nat) =>
              [Event.chunk (65536 * q) (min 65536 (total - 65536 * q)),
                Event.fwrite Src.rdrand (min 65536 (total - 65536 * q)),
                Event.fwrite Src.rdseed (min 65536 (total - 65536 * q))] ++
              (if (65536 * (q : Int) + min 65536 (total - 65536 * q)) % 1310720 = 0 then
                [Event.printf
                  (Msg.progress (65536 * (q : Int) + min 65536 (total - 65536 * q)) total)]
              else [])) ++
          [Event.printf Msg.done, Event.free Src.rdrand, Event.free Src.rdseed,
            Event.fclose Src.rdrand, Event.fclose Src.rdseed] ∧
      (∀ k : Nat, k < (total / 1310720).toNat →
        0 < 1310720 * ((k : Int) + 1) ∧ 1310720 * ((k : Int) + 1) ≤ total ∧
        (1310720 * ((k : Int) + 1)) % 1310720 = 0) := by
  have hcl : chunkTrace total (nchunks total) 0 =
      (List.range (nchunks total)).flatMap (chunkEvents total) :=
    chunkTrace_closed total (nchunks total) (by simp only [nchunks, CHUNK_SIZE]; omega)
  refine ⟨_, main_done env hw fuel argv0 total w henv h0 hmax hfuel hok, ?_, ?_, ?_⟩
  · show stdout (w.trace ++ setupTrace total ++ chunkTrace total (nchunks total) 0 ++
      cleanupTrace) = _
    rw [hcl, stdout_append, stdout_append, stdout_append, stdout_all_chunks total h0]
    rfl
  · show w.trace ++ setupTrace total ++ chunkTrace total (nchunks total) 0 ++ cleanupTrace = _
    rw [hcl]
    rfl
  · intro k hk
    omega

/-- C9 at a concrete input: 1310720 samples from hardware that always
succeeds; one progress line. -/
theorem main_progress_lines_witness :
    ∃ w', main envOk hwGood 1310721 2 "collector" 1310720 world0 = Outcome.exit 0 w' ∧
      stdout w'.trace =
        stdout world0.trace ++ [Msg.collecting 1310720] ++
          (List.range ((1310720 : Int) / 1310720).toNat).map
            (fun (k : Nat) => Msg.progress (1310720 * ((k : Int) + 1)) 1310720) ++
          [Msg.done] ∧
      w'.trace =
        world0.trace ++
          [Event.fopen Src.rdrand true, Event.fopen Src.rdseed true,
            Event.malloc Src.rdrand true, Event.malloc Src.rdseed true,
            Event.printf (Msg.collecting 1310720)] ++
          (List.range (nchunks 1310720)).flatMap
            (fun (q : Nat) =>
              [Event.chunk (65536 * q) (min 65536 (1310720 - 65536 * q)),
                Event.fwrite Src.rdrand (min 65536 (1310720 - 65536 * q)),
                Event.fwrite Src.rdseed (min 65536 (1310720 - 65536 * q))] ++
              (if (65536 * (q : Int) + min 65536 (1310720 - 65536 * q)) % 1310720 = 0 then
                [Event.printf
                  (Msg.progress (65536 * (q : Int) + min 65536 (1310720 - 65536 * q))
                    1310720)]
              else [])) ++
          [Event.printf Msg.done, Event.free Src.rdrand, Event.free Src.rdseed,
            Event.fclose Src.rdrand, Event.fclose Src.rdseed] ∧
      (∀ k : Nat, k < ((1310720 : Int) / 1310720).toNat →
        0 < 1310720 * ((k : Int) + 1) ∧ 1310720 * ((k : Int) + 1) ≤ 1310720 ∧
        (1310720 * ((k : Int) + 1)) % 1310720 = 0) :=
  main_progress_lines envOk hwGood 1310721 "collector" 1310720 world0 ⟨rfl, rfl, rfl, rfl⟩
    (by decide) (by decide) (by decide) (acquire_hwGood _ _)

/-- The progress lines of the concrete run of 1310720 samples: exactly one,
for the cumulative count 1310720. -/
theorem progress_lines_1310720 :
    (List.range ((1310720 : Int) / 1310720).toNat).map
        (fun (k : Nat) => Msg.progress (1310720 * ((k : Int) + 1)) 1310720) =
      [Msg.progress 1310720 1310720] := by
  decide

/-! ## The loop invariant -/

theorem chunkInv_of_index (total : Int) (q : Nat) (hmax : total ≤ LLONG_MAX)
    (hq : CHUNK_SIZE * (q : Int) < total) :
    ChunkInv total (CHUNK_SIZE * q) (min CHUNK_SIZE (total - CHUNK_SIZE * q)) := by
  rw [ChunkInv, to_read_eq_min]
  simp only [in_llong, LLONG_MIN, LLONG_MAX, CHUNK_SIZE] at *
  refine ⟨?_, ?_, ?_, ?_, ?_, ?_, ?_, ?_, ?_⟩ <;> first | trivial | omega

theorem chunk_mem_chunkEvents (total : Int) (q : Nat) (c n : Int)
    (h : Event.chunk c n ∈ chunkEvents total q) :
    c = CHUNK_SIZE * q ∧ n = min CHUNK_SIZE (total - CHUNK_SIZE * q) := by
  rw [chunkEvents] at h
  by_cases hp : (CHUNK_SIZE * (q : Int) + min CHUNK_SIZE (total - CHUNK_SIZE * q)) %
      (CHUNK_SIZE * 20) = 0
  · rw [if_pos hp] at h
    simpa using h
  · rw [if_neg hp] at h
    simpa using h

theorem chunk_mem_closed (total : Int) (m : Nat) (c n : Int) (hmax : total ≤ LLONG_MAX)
    (hm : CHUNK_SIZE * (m : Int) < total + CHUNK_SIZE)
    (h : Event.chunk c n ∈ chunkTrace total m 0) : ChunkInv total c n := by
  rw [chunkTrace_closed total m hm, List.mem_flatMap] at h
  obtain ⟨q, hq, hmem⟩ := h
  obtain ⟨rfl, rfl⟩ := chunk_mem_chunkEvents total q c n hmem
  have hq1 : q < m := List.mem_range.mp hq
  exact chunkInv_of_index total q hmax (by simp only [CHUNK_SIZE] at *; omega)

theorem main_not_allOk (env : Env) (hw : Hardware) (fuel : Nat) (argv0 : String)
    (total : Int) (w : World) (henv : ¬ env.allOk) :
    ∃ w', main env hw fuel 2 argv0 total w = Outcome.exit 1 w' ∧ w'.cpu = w.cpu ∧
      (∀ c n, Event.chunk c n ∈ w'.trace → Event.chunk c n ∈ w.trace) := by
  obtain ⟨o1, o2, m1, m2, h1, h2⟩ := env
  cases o1 <;> cases o2 <;> cases m1 <;> cases m2
  on_goal 16 => exact absurd ⟨rfl, rfl, rfl, rfl⟩ henv
  all_goals
    refine ⟨_, rfl, rfl, ?_⟩
    intro c n h
    simpa [fopen_wb] using h

theorem chunk_not_mem_setup (total c n : Int) : Event.chunk c n ∉ setupTrace total := by
  simp [setupTrace]

theorem chunk_not_mem_cleanup (c n : Int) : Event.chunk c n ∉ cleanupTrace := by
  simp [cleanupTrace]

theorem main_chunks_ok (env : Env) (hw : Hardware) (fuel : Nat) (argv0 : String)
    (total : Int) (w : World) (henv : env.allOk) (hpos : 0 < total) (hmax : total ≤ LLONG_MAX)
    (hfuel : total.toNat < fuel) :
    ∃ status w', main env hw fuel 2 argv0 total w = Outcome.exit status w' ∧
      (∀ c n, Event.chunk c n ∈ w'.trace → Event.chunk c n ∈ w.trace ∨ ChunkInv total c n) := by
  cases hA : (acquire hw total.toNat w.cpu).failed with
  | none =>
    refine ⟨0, _, main_done env hw fuel argv0 total w henv (le_of_lt hpos) hmax hfuel hA, ?_⟩
    intro c n h
    simp only [List.mem_append] at h
    rcases h with ((h | h) | h) | h
    · exact Or.inl h
    · exact absurd h (chunk_not_mem_setup total c n)
    · exact Or.inr (chunk_mem_closed total (nchunks total) c n hmax
        (by simp only [nchunks, CHUNK_SIZE]; omega) h)
    · exact absurd h (chunk_not_mem_cleanup c n)
  | some src =>
    have hlen := acquire_failed_length hw total.toNat w.cpu src hA
    have hq : CHUNK_SIZE * (((acquire hw total.toNat w.cpu).seed.length / 65536 : Nat) : Int) <
        total := by
      simp only [CHUNK_SIZE]; omega
    refine ⟨1, _, main_abort env hw fuel argv0 total w src henv (le_of_lt hpos) hmax hfuel hA, ?_⟩
    intro c n h
    simp only [abortWorld, startWorld, List.mem_append, List.mem_cons, List.mem_singleton,
      List.not_mem_nil, or_false, zero_add] at h
    rcases h with ((h | h) | h) | h | h
    · exact Or.inl h
    · exact absurd h (chunk_not_mem_setup total c n)
    · exact Or.inr (chunk_mem_closed total _ c n hmax
        (by simp only [CHUNK_SIZE] at *; omega) h)
    · have hc : c = CHUNK_SIZE * (((acquire hw total.toNat w.cpu).seed.length / 65536 : Nat) : Int) ∧
          n = min CHUNK_SIZE (total - CHUNK_SIZE *
            (((acquire hw total.toNat w.cpu).seed.length / 65536 : Nat) : Int)) := by
        simpa [CHUNK_SIZE] using h
      rw [hc.1, hc.2]
      exact Or.inr (chunkInv_of_index total _ hmax hq)
    · cases h

/-- C10: for every `total` that is a value of `long long`, and whatever the
environment and the hardware do, `main` ends by returning (it never reaches a
signed overflow in `total - collected` or `collected += to_read`, never
accesses a buffer outside `0 <= i < 65536`, and terminates); every iteration
of the collection loop it started satisfies, for the values `c` of `collected`
and `n` of `to_read` at its start: `0 <= c < total`, `c` is a multiple of
65536, `n` is the value the source computes, `1 <= n <= 65536`,
`c + n <= total`, and both `total - c` and `c + n` are values of `long long`;
for `total <= 0` no iteration is started and no instruction is invoked. -/
theorem main_loop_safe (env : Env) (hw : Hardware) (fuel : Nat) (argc : Int) (argv0 : String)
    (total : Int) (w : World) (hrange : LLONG_MIN ≤ total ∧ total ≤ LLONG_MAX)
    (hfuel : total.toNat < fuel) :
    ∃ status w', main env hw fuel argc argv0 total w = Outcome.exit status w' ∧
      (∀ c n, Event.chunk c n ∈ w'.trace → Event.chunk c n ∈ w.trace ∨
        (0 ≤ c ∧ c < total ∧ c % 65536 = 0 ∧
          n = (if total - c > 65536 then 65536 else total - c) ∧
          1 ≤ n ∧ n ≤ 65536 ∧ c + n ≤ total ∧
          (LLONG_MIN ≤ total - c ∧ total - c ≤ LLONG_MAX) ∧
          (LLONG_MIN ≤ c + n ∧ c + n ≤ LLONG_MAX))) ∧
      (total ≤ 0 → w'.cpu = w.cpu ∧
        ∀ c n, Event.chunk c n ∈ w'.trace → Event.chunk c n ∈ w.trace) := by
  by_cases hargc : argc = 2
  · subst hargc
    by_cases henv : env.allOk
    · rcases le_or_lt total 0 with hneg | hpos
      · have hm := main_negative env hw fuel argv0 total w henv hneg (by omega)
        have hno : ∀ c n, Event.chunk c n ∈ w.trace ++ setupTrace total ++ cleanupTrace →
            Event.chunk c n ∈ w.trace := by
          intro c n h
          simp only [List.mem_append] at h
          rcases h with (h | h) | h
          · exact h
          · exact absurd h (chunk_not_mem_setup total c n)
          · exact absurd h (chunk_not_mem_cleanup c n)
        exact ⟨0, _, hm, fun c n h => Or.inl (hno c n h), fun _ => ⟨rfl, hno⟩⟩
      · obtain ⟨status, w', hm, hinv⟩ :=
          main_chunks_ok env hw fuel argv0 total w henv hpos hrange.2 hfuel
        refine ⟨status, w', hm, ?_, fun h => absurd h (by omega)⟩
        intro c n h
        rcases hinv c n h with h1 | h1
        · exact Or.inl h1
        · exact Or.inr h1
    · obtain ⟨w', hm, hcpu, hno⟩ := main_not_allOk env hw fuel argv0 total w henv
      exact ⟨1, w', hm, fun c n h => Or.inl (hno c n h), fun _ => ⟨hcpu, hno⟩⟩
  · refine ⟨1, ⟨w.cpu, w.rdrand_raw, w.rdseed_raw,
      w.trace ++ [Event.printf (Msg.usage argv0)]⟩, by simp [main, hargc], ?_, ?_⟩
    · intro c n h
      left
      simpa using h
    · intro _
      refine ⟨rfl, ?_⟩
      intro c n h
      simpa using h

/-- C10 at a concrete input: three samples from hardware that always
succeeds. -/
theorem main_loop_safe_witness :
    ∃ status w', main envOk hwGood 4 2 "collector" 3 world0 = Outcome.exit status w' ∧
      (∀ c n, Event.chunk c n ∈ w'.trace → Event.chunk c n ∈ world0.trace ∨
        (0 ≤ c ∧ c < 3 ∧ c % 65536 = 0 ∧
          n = (if (3 : Int) - c > 65536 then 65536 else 3 - c) ∧
          1 ≤ n ∧ n ≤ 65536 ∧ c + n ≤ 3 ∧
          (LLONG_MIN ≤ 3 - c ∧ 3 - c ≤ LLONG_MAX) ∧
          (LLONG_MIN ≤ c + n ∧ c + n ≤ LLONG_MAX))) ∧
      ((3 : Int) ≤ 0 → w'.cpu = world0.cpu ∧
        ∀ c n, Event.chunk c n ∈ w'.trace → Event.chunk c n ∈ world0.trace) :=
  main_loop_safe envOk hwGood 4 2 "collector" 3 world0 (by decide) (by decide)

end Collector
